import Mathlib

/-!
# detect.cpp: a shallow embedding of the detection driver

The development follows `src/examples/detect/detect.cpp`.

* Paths and command-line tokens are `String`s; `size_t` / `int` counters are
  `Nat`.  The only additions on `size_t` are `i + batchSize` and `i += batchSize`
  with `i < imageFiles.size()`; with `i` a multiple of `batchSize` they stay
  below `2 * imageFiles.size()`, which a `std::vector<std::string>` keeps far
  below `2^64`, so no wrap-around is taken into account.  `int count` is
  incremented at most once per image.
* Calls into OpenCV and the `deploy` library are recorded as events in the
  order in which `main` issues them, and are taken to return normally.
  `cv::imread` is the one call whose result `main` inspects (an empty matrix is
  the decode failure), and the constructor of the model may throw.
* `throw std::runtime_error(msg)` is a result carrying `msg`; the `catch` at
  the end of `main` turns it into a line on standard error and exit status 1.
* Reads outside an array (`argv[argc]` used as a string, `labels[cls]` with
  `cls` out of range) are results of their own, distinct from exceptions.
-/

namespace Detect

/-! ## Paths -/

/-- The component after the last directory separator: `fs::path::filename()`. -/
def filename (p : String) : String :=
  String.mk (p.data.reverse.takeWhile (fun c => c ≠ '/')).reverse

/-- The rule of `fs::path::extension()`: empty for the special names `.` and
`..`, empty when the file name has no period or its only period is the first
character, otherwise the substring starting at the rightmost period. -/
def extension (p : String) : String :=
  let f := (filename p).data
  let tail := (f.reverse.takeWhile (fun c => c ≠ '.')).reverse
  if f = ['.'] ∨ f = ['.', '.'] then ""
  else if '.' ∉ f then ""
  else if f.length = tail.length + 1 then ""
  else String.mk ('.' :: tail)

/-- What the call `fs::is_regular_file(entry)` of line 18 does.  It is the
overload without `std::error_code`: it answers `true` or `false`, or it throws
`fs::filesystem_error` (with message `what`) when the status of the entry
cannot be determined, as for a symbolic link that points to itself. -/
inductive RegularTest
  | yes
  | no
  | throws (what : String)
  deriving DecidableEq, Repr

/-- One element produced by `fs::directory_iterator`: its path and what
`fs::is_regular_file(entry)` does on it. -/
structure DirEntry where
  path : String
  isRegularFile : RegularTest
  deriving DecidableEq, Repr

/-- Lines 16-21: the range-for loop over the entries still to visit, with
`imageFiles` as built so far and `push_back` as appending at its end.  The
test `fs::is_regular_file(entry)` is the left operand of `&&` and is made for
every entry; when it throws, the loop and the function are left. -/
def scanEntries : List DirEntry → List String → Except String (List String)
  | [], imageFiles => .ok imageFiles
  | entry :: rest, imageFiles =>
    let ext := extension entry.path
    match entry.isRegularFile with
    | .throws what => .error what
    | .no => scanEntries rest imageFiles
    | .yes =>
      if ext = ".jpg" ∨ ext = ".png" ∨ ext = ".jpeg" ∨ ext = ".bmp" then
        scanEntries rest (imageFiles ++ [entry.path])
      else scanEntries rest imageFiles

/-- Lines 14-23.  The result is the vector returned, or the message of the
exception that left the function. -/
def getImagesInDirectory (entries : List DirEntry) : Except String (List String) :=
  scanEntries entries []

/-! ## Command line -/

/-- The five variables `parseArguments` receives by reference. -/
structure Args where
  enginePath : String
  inputPath : String
  outputPath : String
  labelPath : String
  useCudaGraph : Bool
  deriving DecidableEq, Repr

/-- The values `main` gives the variables at lines 106-107. -/
def Args.initial : Args :=
  { enginePath := "", inputPath := "", outputPath := "", labelPath := "", useCudaGraph := false }

/-- How a call of `parseArguments` ends.  `nullRead k` stands for the
assignment of `argv[k]` with `k = argc` to a `std::string`: `argv[argc]` is the
terminating null pointer, and constructing a string from it is undefined. -/
inductive ParseResult
  | returned (a : Args)
  | exited (stderr : List String) (code : Nat)
  | nullRead (index : Nat)
  deriving DecidableEq, Repr

/-- The result of `parseArguments` together with the indices of `argv` it read,
in order. -/
structure ParseRun where
  reads : List Nat
  result : ParseResult
  deriving DecidableEq, Repr

/-- The text written at line 81. -/
def usageLine (argv0 : String) : String :=
  "Usage: " ++ argv0 ++ " -e <engine> -i <input> [-o <output>] [-l <labels>] [--cudaGraph]"

/-- Lines 85-101.  `i` is the loop variable and `rest` the tokens
`argv[i], ..., argv[argc - 1]`; `argv[++i]` is the second token of `rest`, or
the null pointer `argv[argc]` when `rest` has only one. -/
def parseLoop : Nat → List String → List Nat → Args → ParseRun
  | _, [], reads, a => { reads := reads, result := .returned a }
  | i, arg :: rest, reads, a =>
    if arg = "-e" ∨ arg = "--engine" then
      match rest with
      | [] => { reads := reads ++ [i, i + 1], result := .nullRead (i + 1) }
      | v :: rest2 => parseLoop (i + 2) rest2 (reads ++ [i, i + 1]) { a with enginePath := v }
    else if arg = "-i" ∨ arg = "--input" then
      match rest with
      | [] => { reads := reads ++ [i, i + 1], result := .nullRead (i + 1) }
      | v :: rest2 => parseLoop (i + 2) rest2 (reads ++ [i, i + 1]) { a with inputPath := v }
    else if arg = "-o" ∨ arg = "--output" then
      match rest with
      | [] => { reads := reads ++ [i, i + 1], result := .nullRead (i + 1) }
      | v :: rest2 => parseLoop (i + 2) rest2 (reads ++ [i, i + 1]) { a with outputPath := v }
    else if arg = "-l" ∨ arg = "--labels" then
      match rest with
      | [] => { reads := reads ++ [i, i + 1], result := .nullRead (i + 1) }
      | v :: rest2 => parseLoop (i + 2) rest2 (reads ++ [i, i + 1]) { a with labelPath := v }
    else if arg = "--cudaGraph" then
      parseLoop (i + 1) rest (reads ++ [i]) { a with useCudaGraph := true }
    else
      { reads := reads ++ [i], result := .exited ["Unknown argument: " ++ arg] 1 }

/-- Lines 77-102.  `argv` lists `argv[0], ..., argv[argc - 1]`, so `argc` is its
length; `a` holds the values of the reference parameters at the call. -/
def parseArguments (argv : List String) (a : Args) : ParseRun :=
  if argv.length < 5 then
    { reads := [0], result := .exited [usageLine (argv.headD "")] 1 }
  else
    parseLoop 1 (argv.drop 1) [] a

/-! ## Detections and rendering -/

/-- A `deploy::Box`; the coordinates are kept as the integers handed to
`cv::Point`. -/
structure Box where
  left : Int
  top : Int
  right : Int
  bottom : Int
  deriving DecidableEq, Repr

/-- A `deploy::DetResult`: `num` and the three sequences `boxes`, `classes`,
`scores`.  A score is an uninterpreted number; only its place in the label text
is of interest. -/
structure DetResult where
  num : Nat
  boxes : List Box
  classes : List Int
  scores : List Nat
  deriving DecidableEq, Repr

/-- The drawing calls of lines 61-63, with the label text of line 56 as the
label and the score it is formatted from. -/
inductive DrawOp
  | rectangle (left top right bottom : Int)
  | filledRectangle (left top right bottom : Int)
  | putText (label : String) (score : Nat) (x y : Int)
  deriving DecidableEq, Repr

/-- How a call of `visualize` ends: it returns after the drawing calls, it
throws, or it evaluates `v[index]` on a vector of `size` elements with `index`
outside `0 .. size - 1` (`operator[]` is unchecked, so this is an out-of-bounds
read and not an exception). -/
inductive Rendered
  | drawn (ops : List DrawOp)
  | threw (what : String)
  | outOfBoundsRead (index : Int) (size : Nat)
  deriving DecidableEq, Repr

/-- Lines 51-64.  The first number is the loop variable `i`, the second is
`result.num - i`; `textSize` is `cv::getTextSize` as (width, height). -/
def visualizeLoop (textSize : String → Nat → Int × Int) (result : DetResult)
    (labels : List String) : Nat → Nat → List DrawOp → Rendered
  | _, 0, ops => .drawn ops
  | i, r + 1, ops =>
    match result.boxes[i]? with
    | none => .outOfBoundsRead i result.boxes.length
    | some box =>
      match result.classes[i]? with
      | none => .outOfBoundsRead i result.classes.length
      | some cls =>
        match result.scores[i]? with
        | none => .outOfBoundsRead i result.scores.length
        | some score =>
          if cls < 0 then .outOfBoundsRead cls labels.length
          else
            match labels[cls.toNat]? with
            | none => .outOfBoundsRead cls labels.length
            | some label =>
              let size := textSize label score
              visualizeLoop textSize result labels (i + 1) r
                (ops ++ [.rectangle box.left box.top box.right box.bottom,
                  .filledRectangle box.left (box.top - size.2) (box.left + size.1) box.top,
                  .putText label score box.left box.top])

/-- Lines 50-65. -/
def visualize (textSize : String → Nat → Int × Int) (result : DetResult)
    (labels : List String) : Rendered :=
  visualizeLoop textSize result labels 0 result.num []

/-! ## Events of a run -/

/-- The two timers of lines 154-155. -/
inductive TimerId
  | cpu
  | gpu
  deriving DecidableEq, Repr

/-- The calls `main` issues, in the order of execution.  An image is named by
the path it was read from.  `imread` stands for `cv::imread` and, when the image
is not empty, the colour conversion that follows it; `visualize` stands for the
colour conversion back and the call of `visualize` on that image. -/
inductive Event
  | createModel (enginePath : String) (useCudaGraph : Bool)
  | imread (path : String)
  | start (t : TimerId)
  | stop (t : TimerId)
  | predictImage (image : String)
  | predict (batch : List String)
  | visualize (image : String)
  | imwrite (path : String)
  deriving DecidableEq, Repr

/-- The state of the inner loop of lines 162-171: the calls made, the vector
`images` (with `imgBatch`), the vector `imgNameBatch`, and the message of the
exception of line 165 when it was thrown. -/
structure Loaded where
  events : List Event
  images : List String
  names : List String
  thrown : Option String
  deriving DecidableEq, Repr

/-- Lines 162-171.  The first number is the loop variable `j`, the second is
`i + batchSize - j`, so the test `j < i + batchSize` is the second number being
positive; `j < imageFiles.size()` is `imageFiles[j]?` being defined. -/
def loadBatch (imreadOk : String → Bool) (imageFiles : List String) :
    Nat → Nat → Loaded → Loaded
  | _, 0, acc => acc
  | j, r + 1, acc =>
    match imageFiles[j]? with
    | none => acc
    | some file =>
      if imreadOk file = true then
        loadBatch imreadOk imageFiles (j + 1) r
          { events := acc.events ++ [.imread file], images := acc.images ++ [file],
            names := acc.names ++ [filename file], thrown := none }
      else
        { acc with events := acc.events ++ [.imread file],
                   thrown := some ("Failed to read image from path: " ++ file) }

/-- Lines 186-192: nothing without an output path, otherwise one `visualize`
and one `cv::imwrite` per image of the batch. -/
def renderBatch (outputPath : String) : List String → List String → List Event
  | image :: images, name :: names =>
    if outputPath = "" then []
    else .visualize image :: .imwrite (outputPath ++ "/" ++ name) ::
      renderBatch outputPath images names
  | _, _ => []

/-- The state of the loop of lines 157-193: the calls made so far, the variable
`count`, and the message of an exception that left the loop. -/
structure LoopRun where
  events : List Event
  count : Nat
  thrown : Option String
  deriving DecidableEq, Repr

/-- Lines 157-193.  The first number bounds the iterations still allowed, the
second is the loop variable `i`.  `none` is returned when the bound is used up
while `i < imageFiles.size()` still holds. -/
def batchLoop (imreadOk : String → Bool) (imageFiles : List String) (batchSize : Nat)
    (outputPath : String) : Nat → Nat → LoopRun → Option LoopRun
  | 0, i, run => if i < imageFiles.length then none else some run
  | fuel + 1, i, run =>
    if i < imageFiles.length then
      let loaded := loadBatch imreadOk imageFiles i batchSize
        { events := [], images := [], names := [], thrown := none }
      match loaded.thrown with
      | some what =>
        some { events := run.events ++ loaded.events, count := run.count, thrown := some what }
      | none =>
        batchLoop imreadOk imageFiles batchSize outputPath fuel (i + batchSize)
          { events := run.events ++ loaded.events
              ++ (if i ≠ 5 then [.start .cpu, .start .gpu] else [])
              ++ [.predict loaded.images]
              ++ (if 5 < i then [.stop .gpu, .stop .cpu] else [])
              ++ renderBatch outputPath loaded.images loaded.names,
            count := if 5 < i then run.count + 1 else run.count,
            thrown := none }
    else some run

/-! ## The file system and the engine, as seen by `main` -/

/-- What `fs::status` reports for an existing path. -/
inductive Kind
  | regular
  | directory
  | other
  deriving DecidableEq, Repr

/-- The ways `fs::create_directories` ends on a path that does not exist: it
returns `true`, it returns `false`, or it throws `fs::filesystem_error`. -/
inductive Mkdir
  | created
  | notCreated
  | failed (what : String)
  deriving DecidableEq, Repr

/-- Everything outside the program that `main` consults.  `kind p` is `none`
when `fs::exists(p)` is false, and the status queries on the paths of the
command line succeed; `listing` is what `fs::directory_iterator` yields, each
entry with the outcome of the status query on it; `readLines p` is `none` when
the `std::ifstream` on `p` does not open; `imreadOk p` tells whether `cv::imread`
returns a non-empty matrix; `createModel` gives `model->batch` of the created
model or the message of the exception its constructor throws. -/
structure Env where
  kind : String → Option Kind
  listing : String → List DirEntry
  readLines : String → Option (List String)
  createDirectories : String → Mkdir
  imreadOk : String → Bool
  createModel : String → Bool → Except String Nat

/-- Lines 26-32.  After a successful `fs::create_directories` the path is a
directory, and the test of line 29 is made in that state. -/
def createOutputDirectory (env : Env) (outputPath : String) : Except String Env :=
  if env.kind outputPath = none then
    match env.createDirectories outputPath with
    | .failed what => .error what
    | .notCreated => .error ("Failed to create output directory: " ++ outputPath)
    | .created =>
      let env2 : Env :=
        { env with kind := fun p => if p = outputPath then some .directory else env.kind p }
      if env2.kind outputPath ≠ some .directory then
        .error ("Output path exists but is not a directory: " ++ outputPath)
      else .ok env2
  else if env.kind outputPath ≠ some .directory then
    .error ("Output path exists but is not a directory: " ++ outputPath)
  else .ok env

/-- Lines 35-47. -/
def generateLabels (env : Env) (labelFile : String) : Except String (List String) :=
  match env.readLines labelFile with
  | none => .error ("Failed to open labels file: " ++ labelFile)
  | some labels => .ok labels

/-- Lines 111-129: the checks made between `parseArguments` and `createModel`.
The result is the label table and the file system after line 128, or the
message of the exception thrown. -/
def validate (env : Env) (a : Args) : Except String (List String × Env) :=
  if env.kind a.enginePath = none then
    .error ("Engine path does not exist: " ++ a.enginePath)
  else if env.kind a.inputPath = none ∨
      (env.kind a.inputPath ≠ some .regular ∧ env.kind a.inputPath ≠ some .directory) then
    .error ("Input path does not exist or is not a regular file/directory: " ++ a.inputPath)
  else if a.outputPath ≠ "" then
    if a.labelPath = "" then
      .error "Please provide a labels file using -l or --labels."
    else if env.kind a.labelPath = none then
      .error ("Label path does not exist: " ++ a.labelPath)
    else
      match generateLabels env a.labelPath with
      | .error what => .error what
      | .ok labels =>
        match createOutputDirectory env a.outputPath with
        | .error what => .error what
        | .ok env2 => .ok (labels, env2)
  else .ok ([], env)

/-! ## `main` -/

/-- A line on standard output.  The two timing lines of lines 196-197 print
`cpuTimer.milliseconds() / count` and `gpuTimer.milliseconds() / count`; the
line keeps the divisor. -/
inductive OutLine
  | averageCpu (count : Nat)
  | averageGpu (count : Nat)
  | completed
  deriving DecidableEq, Repr

/-- The effects of a part of the `try` block: the calls made, the lines
written to standard output, and the message of the exception that ended it. -/
structure TryRun where
  events : List Event
  stdout : List OutLine
  thrown : Option String
  deriving DecidableEq, Repr

/-- Lines 134-145: the branch for a regular input file. -/
def singleMode (env : Env) (a : Args) : TryRun :=
  if env.imreadOk a.inputPath = true then
    { events := [.imread a.inputPath, .predictImage a.inputPath]
        ++ (if a.outputPath ≠ "" then
              [.visualize a.inputPath, .imwrite (a.outputPath ++ "/" ++ filename a.inputPath)]
            else []),
      stdout := [], thrown := none }
  else
    { events := [.imread a.inputPath], stdout := [],
      thrown := some ("Failed to read image from path: " ++ a.inputPath) }

/-- Lines 147-198: the branch for a directory.  The loop is given as many
iterations as there are images, which is enough whenever `batchSize` is
positive; with `batchSize = 0` the loop of the source does not end and the
result is `none`. -/
def directoryMode (env : Env) (a : Args) (batchSize : Nat) : Option TryRun :=
  match getImagesInDirectory (env.listing a.inputPath) with
  | .error what => some { events := [], stdout := [], thrown := some what }
  | .ok imageFiles =>
    if imageFiles = [] then
      some { events := [], stdout := [],
             thrown := some ("No image files found in the directory: " ++ a.inputPath) }
    else
      match batchLoop env.imreadOk imageFiles batchSize a.outputPath imageFiles.length 0
          { events := [], count := 0, thrown := none } with
      | none => none
      | some run =>
        match run.thrown with
        | some what => some { events := run.events, stdout := [], thrown := some what }
        | none =>
          some { events := run.events,
                 stdout := if 0 < run.count then [.averageCpu run.count, .averageGpu run.count]
                           else [],
                 thrown := none }

/-- Lines 106-201: the body of the `try` block after `parseArguments`. -/
def tryBody (env : Env) (a : Args) : Option TryRun :=
  match validate env a with
  | .error what => some { events := [], stdout := [], thrown := some what }
  | .ok (_, env2) =>
    match env2.createModel a.enginePath a.useCudaGraph with
    | .error what =>
      some { events := [.createModel a.enginePath a.useCudaGraph], stdout := [],
             thrown := some what }
    | .ok batch =>
      let branch :=
        if env2.kind a.inputPath = some .regular then some (singleMode env2 a)
        else directoryMode env2 a batch
      match branch with
      | none => none
      | some run =>
        some { events := .createModel a.enginePath a.useCudaGraph :: run.events,
               stdout := match run.thrown with
                 | none => run.stdout ++ [.completed]
                 | some _ => run.stdout,
               thrown := run.thrown }

/-- What a finished process leaves behind. -/
structure Exit where
  events : List Event
  stdout : List OutLine
  stderr : List String
  status : Nat
  deriving DecidableEq, Repr

/-- How a run of `main` ends: the process exits, `parseArguments` runs into
the null pointer `argv[argc]`, or the batch loop does not end. -/
inductive MainResult
  | exit (e : Exit)
  | undefinedNullRead
  | loopsForever
  deriving DecidableEq, Repr

/-- Lines 104-208. -/
def main (env : Env) (argv : List String) : MainResult :=
  match (parseArguments argv Args.initial).result with
  | .exited stderr code => .exit { events := [], stdout := [], stderr := stderr, status := code }
  | .nullRead _ => .undefinedNullRead
  | .returned a =>
    match tryBody env a with
    | none => .loopsForever
    | some run =>
      match run.thrown with
      | some what =>
        .exit { events := run.events, stdout := run.stdout, stderr := ["Error: " ++ what],
                status := 1 }
      | none => .exit { events := run.events, stdout := run.stdout, stderr := [], status := 0 }

/-- The run gets as far as the directory branch: `parseArguments` returns `a`,
the checks of lines 111-129 pass and leave the file system `env2`, the model is
created with `model->batch = batchSize`, and the input is not a regular file. -/
def ReachesDirectoryMode (env : Env) (argv : List String) (a : Args) (env2 : Env)
    (batchSize : Nat) : Prop :=
  (parseArguments argv Args.initial).result = .returned a ∧
  (∃ labels, validate env a = .ok (labels, env2)) ∧
  env2.createModel a.enginePath a.useCudaGraph = .ok batchSize ∧
  env2.kind a.inputPath ≠ some .regular

/-! ## Timers

`deploy::CpuTimer` and `deploy::GpuTimer` come from `deploy/utils/utils.hpp`,
which is not among the sources: what `start()` and `stop()` do inside is not
fixed here.  The definitions below speak only of the calls `main` issues. -/

/-- One call seen by the state machine of timer `t`.  The state is
`some running`, or `none` once a call was not allowed.  `stop()` is never
allowed on an idle timer; `start()` on a running timer is refused when `strict`
is set and otherwise leaves the timer running. -/
def timerStep (strict : Bool) (t : TimerId) : Option Bool → Event → Option Bool
  | none, _ => none
  | some running, .start u =>
    if u = t then (if strict = true ∧ running = true then none else some true)
    else some running
  | some running, .stop u =>
    if u = t then (if running = true then some false else none) else some running
  | some running, _ => some running

/-- The state of timer `t` after the calls `events`, from idle. -/
def timerRun (strict : Bool) (t : TimerId) (events : List Event) : Option Bool :=
  events.foldl (timerStep strict t) (some false)

/-- The discipline idle --start()--> running --stop()--> idle: no `start()` on
a running timer and no `stop()` on an idle one. -/
def respectsStateMachine (t : TimerId) (events : List Event) : Prop :=
  (timerRun true t events).isSome = true

/-- The weaker discipline: no `stop()` on an idle timer. -/
def neverStopsIdle (t : TimerId) (events : List Event) : Prop :=
  (timerRun false t events).isSome = true

instance (t : TimerId) (events : List Event) : Decidable (respectsStateMachine t events) :=
  inferInstanceAs (Decidable (_ = true))

instance (t : TimerId) (events : List Event) : Decidable (neverStopsIdle t events) :=
  inferInstanceAs (Decidable (_ = true))

/-- The `start()` and `stop()` calls among `events`, in call order. -/
def timerCalls : List Event → List Event
  | [] => []
  | .start t :: es => .start t :: timerCalls es
  | .stop t :: es => .stop t :: timerCalls es
  | _ :: es => timerCalls es

/-- The batches handed to the batch overload of `predict`, in call order. -/
def predictCalls : List Event → List (List String)
  | [] => []
  | .predict batch :: es => batch :: predictCalls es
  | _ :: es => predictCalls es

/-! ## The command line, as the usage text describes it -/

/-- The flags that are followed by a value. -/
def valueFlags : List String :=
  ["-e", "--engine", "-i", "--input", "-o", "--output", "-l", "--labels"]

/-- The flags `parseArguments` knows. -/
def recognized (token : String) : Bool :=
  decide (token ∈ valueFlags) || decide (token = "--cudaGraph")

/-- The tokens in flag position, each with the value that follows it: the
first token after the program name is in flag position, a value-taking flag
puts the token after its value in flag position, any other token puts the next
token there.  A value-taking flag that is the last token has no value. -/
def flagTokens : List String → List (String × Option String)
  | [] => []
  | token :: tail =>
    if token ∈ valueFlags then
      match tail with
      | [] => [(token, none)]
      | value :: rest => (token, some value) :: flagTokens rest
    else (token, none) :: flagTokens tail

/-- The value following the last occurrence, in flag position, of one of
`names`; `default` when there is none. -/
def lastValue (names : List String) (tokens : List (String × Option String))
    (default : String) : String :=
  ((tokens.filterMap (fun p => if p.1 ∈ names then p.2 else none)).getLast?).getD default

/-- Every value-taking flag in flag position is followed by a token. -/
def ValuesPresent (tokens : List (String × Option String)) : Prop :=
  ∀ p ∈ tokens, p.1 ∈ valueFlags → p.2.isSome = true

/-- What the scan over the tokens in flag position yields: the first
unrecognized token gives exit code 1, and otherwise every path is the value
after the last occurrence of its flag and `useCudaGraph` is set when
`--cudaGraph` occurs in flag position. -/
def specResult (tokens : List (String × Option String)) (a : Args) : ParseResult :=
  match tokens.find? (fun p => !recognized p.1) with
  | some p => .exited ["Unknown argument: " ++ p.1] 1
  | none =>
    .returned
      { enginePath := lastValue ["-e", "--engine"] tokens a.enginePath,
        inputPath := lastValue ["-i", "--input"] tokens a.inputPath,
        outputPath := lastValue ["-o", "--output"] tokens a.outputPath,
        labelPath := lastValue ["-l", "--labels"] tokens a.labelPath,
        useCudaGraph := a.useCudaGraph || tokens.any (fun p => decide (p.1 = "--cudaGraph")) }

/-- The behaviour of `parseArguments` in the words of the usage text: fewer
than four tokens after the program name give the usage line and exit code 1,
and otherwise the tokens in flag position decide. -/
def parseSpec (argv : List String) (a : Args) : ParseResult :=
  if argv.length < 5 then .exited [usageLine (argv.headD "")] 1
  else specResult (flagTokens (argv.drop 1)) a

/-! ## The directory scan and the checks, as the spec lists them -/

/-- An entry the scan keeps: a regular file whose extension is on the list. -/
def isImageEntry (e : DirEntry) : Bool :=
  decide (e.isRegularFile = .yes) &&
    decide (extension e.path ∈ [".jpg", ".jpeg", ".png", ".bmp"])

/-- Check (5): the message with which creating the output directory fails, if
it does. -/
def outputDirectoryFailure (env : Env) (outputPath : String) : Option String :=
  match env.kind outputPath with
  | some .directory => none
  | some _ => some ("Output path exists but is not a directory: " ++ outputPath)
  | none =>
    match env.createDirectories outputPath with
    | .created => none
    | .notCreated => some ("Failed to create output directory: " ++ outputPath)
    | .failed what => some what

/-- The checks (1)-(5) in order, each as the message of its failure; without
an output path only (1) and (2) are made. -/
def validationChecks (env : Env) (a : Args) : List (Option String) :=
  [ if env.kind a.enginePath = none then
      some ("Engine path does not exist: " ++ a.enginePath)
    else none,
    if env.kind a.inputPath = some .regular ∨ env.kind a.inputPath = some .directory then none
    else some ("Input path does not exist or is not a regular file/directory: " ++ a.inputPath) ]
  ++
  (if a.outputPath = "" then []
   else
    [ if a.labelPath = "" then some "Please provide a labels file using -l or --labels."
      else none,
      if env.kind a.labelPath = none then some ("Label path does not exist: " ++ a.labelPath)
      else if env.readLines a.labelPath = none then
        some ("Failed to open labels file: " ++ a.labelPath)
      else none,
      outputDirectoryFailure env a.outputPath ])

/-- The message of the first check that fails. -/
def firstFailure (env : Env) (a : Args) : Option String :=
  (validationChecks env a).findSome? id

/-! ## Closed forms used in the statements -/

/-- The number of batches `ceil(K / B)` for `K` images and batch size `B`. -/
def batchCount (K B : Nat) : Nat :=
  (K + B - 1) / B

/-- The images of the batch that starts at offset `i`. -/
def chunkAt (imageFiles : List String) (batchSize i : Nat) : List String :=
  (imageFiles.drop i).take batchSize

/-- The calls of one iteration of the batch loop at offset `i` in which every
image decodes. -/
def batchEvents (imageFiles : List String) (batchSize : Nat) (outputPath : String)
    (i : Nat) : List Event :=
  (chunkAt imageFiles batchSize i).map Event.imread
    ++ (if i ≠ 5 then [.start .cpu, .start .gpu] else [])
    ++ [.predict (chunkAt imageFiles batchSize i)]
    ++ (if 5 < i then [.stop .gpu, .stop .cpu] else [])
    ++ renderBatch outputPath (chunkAt imageFiles batchSize i)
        ((chunkAt imageFiles batchSize i).map filename)

/-- The `start()` and `stop()` calls of a complete iteration at offset `i`. -/
def batchTimerCalls (i : Nat) : List Event :=
  (if i ≠ 5 then [.start .cpu, .start .gpu] else [])
    ++ (if 5 < i then [.stop .gpu, .stop .cpu] else [])

/-- The batches, by position in the run, whose first image offset exceeds 5:
the batches for which lines 180-184 stop the timers and increment `count`. -/
def measuredBatches (K B : Nat) : List Nat :=
  (List.range (batchCount K B)).filter (fun k => 5 < k * B)

/-- The calls of a directory run over `imageFiles` in which every image
decodes: the iterations at offsets `0, B, 2 B, ...`, one per batch. -/
def directoryEvents (imageFiles : List String) (batchSize : Nat) (outputPath : String) :
    List Event :=
  (List.range (batchCount imageFiles.length batchSize)).flatMap
    (fun k => batchEvents imageFiles batchSize outputPath (k * batchSize))

/-- The state of the batch loop after one iteration at offset `i` in which
every image decodes. -/
def afterBatch (imageFiles : List String) (batchSize : Nat) (outputPath : String)
    (i : Nat) (run : LoopRun) : LoopRun :=
  { events := run.events ++ batchEvents imageFiles batchSize outputPath i,
    count := run.count + (if 5 < i then 1 else 0),
    thrown := none }

/-- The state of the batch loop after `n` further iterations from offset `i`,
all of whose images decode. -/
def afterBatches (imageFiles : List String) (batchSize : Nat) (outputPath : String)
    (i n : Nat) (run : LoopRun) : LoopRun :=
  { events := run.events ++
      (List.range n).flatMap (fun k => batchEvents imageFiles batchSize outputPath (i + k * batchSize)),
    count := run.count + ((List.range n).filter (fun k => 5 < i + k * batchSize)).length,
    thrown := run.thrown }

/-! ## Sample runs -/

/-- A file system with the engine `model.engine`, the label file `labels.txt`,
the directory `imgs` holding `entries`, and the regular file `taken`; images
listed in `broken` do not decode, and the model has `model->batch = batch`. -/
def sampleEnv (entries : List DirEntry) (batch : Nat) (broken : List String) : Env :=
  { kind := fun p =>
      if p = "model.engine" ∨ p = "labels.txt" ∨ p = "taken" then some .regular
      else if p = "imgs" then some .directory
      else none,
    listing := fun _ => entries,
    readLines := fun p => if p = "labels.txt" then some ["cat", "dog"] else none,
    createDirectories := fun _ => .created,
    imreadOk := fun f => decide (f ∉ broken),
    createModel := fun _ _ => .ok batch }

/-- The command line `detect -e model.engine -i imgs`. -/
def sampleArgv : List String :=
  ["detect", "-e", "model.engine", "-i", "imgs"]

/-- The variables after parsing `sampleArgv`. -/
def sampleArgs : Args :=
  { enginePath := "model.engine", inputPath := "imgs", outputPath := "", labelPath := "",
    useCudaGraph := false }

/-- Seven images. -/
def sevenImages : List DirEntry :=
  [⟨"imgs/0.jpg", .yes⟩, ⟨"imgs/1.jpg", .yes⟩, ⟨"imgs/2.png", .yes⟩, ⟨"imgs/3.jpg", .yes⟩,
   ⟨"imgs/4.bmp", .yes⟩, ⟨"imgs/5.jpg", .yes⟩, ⟨"imgs/6.jpeg", .yes⟩]

/-- The paths of `sevenImages`. -/
def sevenPaths : List String :=
  ["imgs/0.jpg", "imgs/1.jpg", "imgs/2.png", "imgs/3.jpg", "imgs/4.bmp", "imgs/5.jpg",
   "imgs/6.jpeg"]

/-- Two images. -/
def twoImages : List DirEntry :=
  [⟨"imgs/0.jpg", .yes⟩, ⟨"imgs/1.jpg", .yes⟩]

/-- A directory without images: an upper-case extension, a text file, and a
sub-directory whose name ends in `.jpg`. -/
def noImages : List DirEntry :=
  [⟨"imgs/a.JPG", .yes⟩, ⟨"imgs/notes.txt", .yes⟩, ⟨"imgs/x.jpg", .no⟩]

/-- A directory whose only entry is a symbolic link to itself: the status
query on it throws. -/
def loopOnly : List DirEntry :=
  [⟨"imgs/loop.jpg", .throws "filesystem error: status: Too many levels of symbolic links [imgs/loop.jpg]"⟩]

/-! ## The inner loop and the batch loop -/

theorem loadBatch_ok (imreadOk : String → Bool) (imageFiles : List String) :
    ∀ (r j : Nat) (acc : Loaded), acc.thrown = none →
      (∀ f ∈ (imageFiles.drop j).take r, imreadOk f = true) →
      loadBatch imreadOk imageFiles j r acc =
        { events := acc.events ++ ((imageFiles.drop j).take r).map Event.imread,
          images := acc.images ++ (imageFiles.drop j).take r,
          names := acc.names ++ ((imageFiles.drop j).take r).map filename,
          thrown := none } := by
  intro r
  induction r with
  | zero =>
    intro j acc hacc _
    cases acc
    simp_all [loadBatch]
  | succ r ih =>
    intro j acc hacc hok
    unfold loadBatch
    cases hj : imageFiles[j]? with
    | none =>
      have : imageFiles.drop j = [] := by
        rw [List.drop_eq_nil_iff]
        exact List.getElem?_eq_none_iff.mp hj
      cases acc
      simp_all
    | some f =>
      obtain ⟨hlt, hf⟩ := List.getElem?_eq_some_iff.mp hj
      have hdrop : imageFiles.drop j = f :: imageFiles.drop (j + 1) := by
        rw [← hf]; exact List.drop_eq_getElem_cons hlt
      have hfok : imreadOk f = true := hok f (by simp [hdrop])
      simp only [hfok, if_true]
      rw [ih (j + 1) _ rfl]
      · simp [hdrop]
      · intro g hg
        exact hok g (by simp [hdrop, hg])

theorem loadBatch_fail (imreadOk : String → Bool) (imageFiles : List String) :
    ∀ (r j : Nat) (acc : Loaded) (pre : List String) (bad : String) (post : List String),
      (imageFiles.drop j).take r = pre ++ bad :: post →
      (∀ f ∈ pre, imreadOk f = true) → imreadOk bad = false →
      loadBatch imreadOk imageFiles j r acc =
        { events := acc.events ++ (pre ++ [bad]).map Event.imread,
          images := acc.images ++ pre,
          names := acc.names ++ pre.map filename,
          thrown := some ("Failed to read image from path: " ++ bad) } := by
  intro r
  induction r with
  | zero =>
    intro j acc pre bad post h
    simp at h
  | succ r ih =>
    intro j acc pre bad post h hpre hbad
    unfold loadBatch
    cases hj : imageFiles[j]? with
    | none =>
      have : imageFiles.drop j = [] := by
        rw [List.drop_eq_nil_iff]
        exact List.getElem?_eq_none_iff.mp hj
      simp [this] at h
    | some f =>
      obtain ⟨hlt, hf⟩ := List.getElem?_eq_some_iff.mp hj
      have hdrop : imageFiles.drop j = f :: imageFiles.drop (j + 1) := by
        rw [← hf]; exact List.drop_eq_getElem_cons hlt
      rw [hdrop, List.take_succ_cons] at h
      cases pre with
      | nil =>
        simp only [List.nil_append, List.cons.injEq] at h
        obtain ⟨hfb, _⟩ := h
        subst hfb
        simp [hbad]
      | cons p pre =>
        simp only [List.cons_append, List.cons.injEq] at h
        obtain ⟨hfp, hrest⟩ := h
        subst hfp
        have hfok : imreadOk f = true := hpre f (by simp)
        simp only [hfok, if_true]
        rw [ih (j + 1) _ pre bad post hrest (fun g hg => hpre g (by simp [hg])) hbad]
        simp

theorem batchLoop_exit (imreadOk : String → Bool) (imageFiles : List String) (batchSize : Nat)
    (outputPath : String) (fuel i : Nat) (run : LoopRun) (h : imageFiles.length ≤ i) :
    batchLoop imreadOk imageFiles batchSize outputPath fuel i run = some run := by
  cases fuel <;> simp [batchLoop, Nat.not_lt.mpr h]

theorem batchLoop_step (imreadOk : String → Bool) (imageFiles : List String) (batchSize : Nat)
    (outputPath : String) (fuel i : Nat) (run : LoopRun)
    (hi : i < imageFiles.length)
    (hok : ∀ f ∈ chunkAt imageFiles batchSize i, imreadOk f = true) :
    batchLoop imreadOk imageFiles batchSize outputPath (fuel + 1) i run =
      batchLoop imreadOk imageFiles batchSize outputPath fuel (i + batchSize)
        (afterBatch imageFiles batchSize outputPath i run) := by
  rw [batchLoop, if_pos hi, loadBatch_ok imreadOk imageFiles batchSize i _ rfl hok]
  by_cases h5 : 5 < i <;> simp [afterBatch, batchEvents, chunkAt, h5]

theorem afterBatches_succ (imageFiles : List String) (batchSize : Nat) (outputPath : String)
    (i n : Nat) (run : LoopRun) (hthrown : run.thrown = none) :
    afterBatches imageFiles batchSize outputPath (i + batchSize) n
        (afterBatch imageFiles batchSize outputPath i run) =
      afterBatches imageFiles batchSize outputPath i (n + 1) run := by
  have hidx : ∀ k, i + batchSize + k * batchSize = i + (k + 1) * batchSize := by
    intro k; ring
  simp only [afterBatches, afterBatch, List.range_succ_eq_map (n := n), List.flatMap_cons,
    List.flatMap_map, List.filter_cons, List.filter_map, List.length_map, hthrown,
    Function.comp_def, hidx, Nat.zero_mul, Nat.add_zero, List.append_assoc,
    decide_eq_true_eq]
  by_cases h5 : 5 < i <;> simp [h5, Nat.add_assoc, Nat.add_comm]

theorem batchLoop_steps (imreadOk : String → Bool) (imageFiles : List String) (batchSize : Nat)
    (outputPath : String) :
    ∀ (n fuel i : Nat) (run : LoopRun), run.thrown = none →
      (∀ k < n, i + k * batchSize < imageFiles.length) →
      (∀ k < n, ∀ f ∈ chunkAt imageFiles batchSize (i + k * batchSize), imreadOk f = true) →
      batchLoop imreadOk imageFiles batchSize outputPath (fuel + n) i run =
        batchLoop imreadOk imageFiles batchSize outputPath fuel (i + n * batchSize)
          (afterBatches imageFiles batchSize outputPath i n run) := by
  intro n
  induction n with
  | zero =>
    intro fuel i run _ _ _
    simp [afterBatches]
  | succ n ih =>
    intro fuel i run hthrown hlt hok
    have h0 : i < imageFiles.length := by simpa using hlt 0 (Nat.succ_pos n)
    have hok0 : ∀ f ∈ chunkAt imageFiles batchSize i, imreadOk f = true := by
      simpa using hok 0 (Nat.succ_pos n)
    rw [← Nat.add_assoc, batchLoop_step imreadOk imageFiles batchSize outputPath (fuel + n) i run
      h0 hok0]
    rw [ih fuel (i + batchSize) _ rfl, afterBatches_succ _ _ _ _ _ _ hthrown]
    · congr 1
      ring
    · intro k hk
      have := hlt (k + 1) (Nat.succ_lt_succ hk)
      rw [Nat.succ_mul] at this
      omega
    · intro k hk f hf
      refine hok (k + 1) (Nat.succ_lt_succ hk) f ?_
      rw [Nat.succ_mul]
      rw [show i + (k * batchSize + batchSize) = i + batchSize + k * batchSize by ring]
      exact hf

theorem batchCount_mul_le (K B : Nat) (hB : 0 < B) (hK : 0 < K) :
    (batchCount K B - 1) * B < K ∧ K ≤ batchCount K B * B ∧ 0 < batchCount K B := by
  unfold batchCount
  have h1 := Nat.div_add_mod (K + B - 1) B
  have h2 := Nat.mod_lt (K + B - 1) hB
  have hpos : 0 < (K + B - 1) / B := Nat.div_pos (by omega) hB
  have h3 : ((K + B - 1) / B - 1) * B + B = (K + B - 1) / B * B := by
    rw [← Nat.succ_mul]
    congr 1
    omega
  rw [Nat.mul_comm] at h1
  refine ⟨by omega, by omega, hpos⟩

theorem offset_lt_of_lt_batchCount (K B k : Nat) (hB : 0 < B) (hk : k < batchCount K B) :
    k * B < K := by
  have hK : 0 < K := by
    rcases Nat.eq_zero_or_pos K with h | h
    · subst h
      unfold batchCount at hk
      have h0 : (0 + B - 1) / B = 0 := Nat.div_eq_of_lt (by omega)
      omega
    · exact h
  have h := (batchCount_mul_le K B hB hK).1
  have : k * B ≤ (batchCount K B - 1) * B := Nat.mul_le_mul_right B (by omega)
  omega

theorem batchCount_le (K B : Nat) (hB : 0 < B) : batchCount K B ≤ K := by
  rcases Nat.eq_zero_or_pos K with h | h
  · subst h
    unfold batchCount
    have h0 : (0 + B - 1) / B = 0 := Nat.div_eq_of_lt (by omega)
    omega
  · have h1 := (batchCount_mul_le K B hB h).1
    have h2 : batchCount K B - 1 ≤ (batchCount K B - 1) * B := Nat.le_mul_of_pos_right _ hB
    omega

/-- With a positive batch size and every image decoding, the batch loop ends
after `batchCount` iterations in the closed-form state. -/
theorem batchLoop_all (imreadOk : String → Bool) (imageFiles : List String) (batchSize : Nat)
    (outputPath : String) (fuel : Nat) (hB : 0 < batchSize)
    (hfuel : batchCount imageFiles.length batchSize ≤ fuel)
    (hok : ∀ f ∈ imageFiles, imreadOk f = true) :
    batchLoop imreadOk imageFiles batchSize outputPath fuel 0
        { events := [], count := 0, thrown := none } =
      some (afterBatches imageFiles batchSize outputPath 0
        (batchCount imageFiles.length batchSize) { events := [], count := 0, thrown := none }) := by
  obtain ⟨rest, rfl⟩ : ∃ rest, fuel = rest + batchCount imageFiles.length batchSize :=
    ⟨fuel - batchCount imageFiles.length batchSize, by omega⟩
  rw [batchLoop_steps imreadOk imageFiles batchSize outputPath _ rest 0 _ rfl]
  · apply batchLoop_exit
    rcases Nat.eq_zero_or_pos imageFiles.length with h | h
    · omega
    · have := (batchCount_mul_le imageFiles.length batchSize hB h).2.1
      omega
  · intro k hk
    have := offset_lt_of_lt_batchCount _ _ k hB hk
    omega
  · intro k _ f hf
    exact hok f (List.mem_of_mem_drop (List.mem_of_mem_take hf))

/-! ## The batches handed to `predict` -/

theorem predictCalls_append (xs ys : List Event) :
    predictCalls (xs ++ ys) = predictCalls xs ++ predictCalls ys := by
  induction xs with
  | nil => rfl
  | cons e xs ih => cases e <;> simp [predictCalls, ih]

theorem predictCalls_imread (fs : List String) : predictCalls (fs.map Event.imread) = [] := by
  induction fs with
  | nil => rfl
  | cons f fs ih => simp [predictCalls, ih]

theorem predictCalls_renderBatch (outputPath : String) :
    ∀ images names : List String, predictCalls (renderBatch outputPath images names) = [] := by
  intro images
  induction images with
  | nil => intro names; simp [renderBatch, predictCalls]
  | cons image images ih =>
    intro names
    cases names with
    | nil => simp [renderBatch, predictCalls]
    | cons name names =>
      by_cases h : outputPath = "" <;> simp [renderBatch, predictCalls, h, ih]

theorem predictCalls_batchEvents (imageFiles : List String) (batchSize : Nat)
    (outputPath : String) (i : Nat) :
    predictCalls (batchEvents imageFiles batchSize outputPath i) =
      [chunkAt imageFiles batchSize i] := by
  unfold batchEvents
  by_cases h5 : i = 5 <;> by_cases h6 : 5 < i <;>
    simp [predictCalls_append, predictCalls_imread, predictCalls_renderBatch, predictCalls, h5, h6]

theorem predictCalls_flatMap (imageFiles : List String) (batchSize : Nat)
    (outputPath : String) (i : Nat) (ks : List Nat) :
    predictCalls (ks.flatMap
        (fun k => batchEvents imageFiles batchSize outputPath (i + k * batchSize))) =
      ks.map (fun k => chunkAt imageFiles batchSize (i + k * batchSize)) := by
  induction ks with
  | nil => rfl
  | cons k ks ih => simp [List.flatMap_cons, predictCalls_append, predictCalls_batchEvents, ih]

theorem flatten_chunks (imageFiles : List String) (batchSize : Nat) (n : Nat) :
    ((List.range n).map (fun k => chunkAt imageFiles batchSize (k * batchSize))).flatten =
      imageFiles.take (n * batchSize) := by
  induction n with
  | zero => simp
  | succ n ih =>
    rw [List.range_succ, List.map_append, List.flatten_append, ih, Nat.succ_mul, List.take_add]
    simp [chunkAt]

theorem length_chunkAt (imageFiles : List String) (batchSize i : Nat) :
    (chunkAt imageFiles batchSize i).length = min batchSize (imageFiles.length - i) := by
  simp [chunkAt]

theorem last_chunk_length (K B : Nat) (hB : 0 < B) (hK : 0 < K) :
    min B (K - (batchCount K B - 1) * B) = if K % B ≠ 0 then K % B else B := by
  obtain ⟨h1, h2, h3⟩ := batchCount_mul_le K B hB hK
  have h4 : (batchCount K B - 1) * B + B = batchCount K B * B := by
    rw [← Nat.succ_mul]; congr 1; omega
  have hmod : K % B = (K - (batchCount K B - 1) * B) % B := by
    conv_lhs => rw [show K = (K - (batchCount K B - 1) * B) + (batchCount K B - 1) * B by omega]
    exact Nat.add_mul_mod_self_right _ _ _
  by_cases hL : K - (batchCount K B - 1) * B < B
  · rw [Nat.mod_eq_of_lt hL] at hmod
    rw [if_pos (by omega)]
    omega
  · have hLB : K - (batchCount K B - 1) * B = B := by omega
    rw [hLB, Nat.mod_self] at hmod
    rw [if_neg (by omega)]
    omega

/-! ## The warm-up window and the timers -/

theorem length_filter_gt_range (d : Nat) :
    ∀ n, ((List.range n).filter (fun k => d < k)).length = n - (d + 1) := by
  intro n
  induction n with
  | zero => simp
  | succ n ih =>
    rw [List.range_succ, List.filter_append, List.length_append, ih]
    by_cases h : d < n
    · simp [h]; omega
    · simp [h]; omega

theorem length_measuredBatches (K B : Nat) (hB : 0 < B) :
    (measuredBatches K B).length = batchCount K B - (5 / B + 1) := by
  unfold measuredBatches
  rw [← length_filter_gt_range (5 / B) (batchCount K B)]
  congr 2
  funext k
  simp [Nat.div_lt_iff_lt_mul hB]

/-! ## Runs in which an image may fail to decode -/

theorem batchLoop_succ (imreadOk : String → Bool) (imageFiles : List String)
    (batchSize : Nat) (outputPath : String) (fuel i : Nat) (run : LoopRun)
    (hi : i < imageFiles.length) :
    batchLoop imreadOk imageFiles batchSize outputPath (fuel + 1) i run =
      match (loadBatch imreadOk imageFiles i batchSize
          { events := [], images := [], names := [], thrown := none }).thrown with
      | some what =>
        some { events := run.events ++ (loadBatch imreadOk imageFiles i batchSize
                 { events := [], images := [], names := [], thrown := none }).events,
               count := run.count, thrown := some what }
      | none =>
        batchLoop imreadOk imageFiles batchSize outputPath fuel (i + batchSize)
          { events := run.events ++ (loadBatch imreadOk imageFiles i batchSize
                { events := [], images := [], names := [], thrown := none }).events
              ++ (if i ≠ 5 then [.start .cpu, .start .gpu] else [])
              ++ [.predict (loadBatch imreadOk imageFiles i batchSize
                { events := [], images := [], names := [], thrown := none }).images]
              ++ (if 5 < i then [.stop .gpu, .stop .cpu] else [])
              ++ renderBatch outputPath
                (loadBatch imreadOk imageFiles i batchSize
                  { events := [], images := [], names := [], thrown := none }).images
                (loadBatch imreadOk imageFiles i batchSize
                  { events := [], images := [], names := [], thrown := none }).names,
            count := if 5 < i then run.count + 1 else run.count,
            thrown := none } := by
  rw [batchLoop, if_pos hi]

theorem batchLoop_terminates (imreadOk : String → Bool) (imageFiles : List String)
    (batchSize : Nat) (outputPath : String) (hB : 0 < batchSize) :
    ∀ (fuel i : Nat) (run : LoopRun), imageFiles.length ≤ i + fuel →
      ∃ r, batchLoop imreadOk imageFiles batchSize outputPath fuel i run = some r := by
  intro fuel
  induction fuel with
  | zero =>
    intro i run h
    exact ⟨run, batchLoop_exit _ _ _ _ _ _ _ (by omega)⟩
  | succ fuel ih =>
    intro i run h
    by_cases hi : i < imageFiles.length
    · rw [batchLoop_succ _ _ _ _ _ _ _ hi]
      cases (loadBatch imreadOk imageFiles i batchSize
          { events := [], images := [], names := [], thrown := none }).thrown with
      | some what => exact ⟨_, rfl⟩
      | none => exact ih _ _ (by omega)
    · exact ⟨run, batchLoop_exit _ _ _ _ _ _ _ (by omega)⟩

theorem loadBatch_events (imreadOk : String → Bool) (imageFiles : List String) :
    ∀ (r j : Nat) (acc : Loaded),
      ∃ fs : List String, (loadBatch imreadOk imageFiles j r acc).events =
        acc.events ++ fs.map Event.imread := by
  intro r
  induction r with
  | zero => intro j acc; exact ⟨[], by simp [loadBatch]⟩
  | succ r ih =>
    intro j acc
    unfold loadBatch
    cases imageFiles[j]? with
    | none => exact ⟨[], by simp⟩
    | some f =>
      by_cases hf : imreadOk f = true
      · simp only [hf, if_true]
        obtain ⟨fs, h⟩ := ih (j + 1)
          { events := acc.events ++ [.imread f], images := acc.images ++ [f],
            names := acc.names ++ [filename f], thrown := none }
        exact ⟨f :: fs, by simp [h]⟩
      · simp only [hf]
        exact ⟨[f], by simp⟩

theorem timer_imread (strict : Bool) (t : TimerId) (fs : List String) (s : Option Bool) :
    (fs.map Event.imread).foldl (timerStep strict t) s = s := by
  induction fs generalizing s with
  | nil => rfl
  | cons f fs ih => cases s <;> simp [timerStep, ih]

theorem timer_renderBatch (strict : Bool) (t : TimerId) (outputPath : String) :
    ∀ (images names : List String) (s : Option Bool),
      (renderBatch outputPath images names).foldl (timerStep strict t) s = s := by
  intro images
  induction images with
  | nil => intro names s; simp [renderBatch]
  | cons image images ih =>
    intro names s
    cases names with
    | nil => simp [renderBatch]
    | cons name names =>
      by_cases h : outputPath = ""
      · simp [renderBatch, h]
      · cases s <;> simp [renderBatch, h, timerStep, ih]

/-- Whatever the images do, every state of the batch loop reached from a trace
without a `stop()` on an idle timer is again such a trace. -/
theorem batchLoop_neverStopsIdle (imreadOk : String → Bool) (imageFiles : List String)
    (batchSize : Nat) (outputPath : String) (t : TimerId) :
    ∀ (fuel i : Nat) (run r : LoopRun),
      batchLoop imreadOk imageFiles batchSize outputPath fuel i run = some r →
      neverStopsIdle t run.events → neverStopsIdle t r.events := by
  intro fuel
  induction fuel with
  | zero =>
    intro i run r h hrun
    unfold batchLoop at h
    split at h
    · cases h
    · cases h; exact hrun
  | succ fuel ih =>
    intro i run r h hrun
    by_cases hi : i < imageFiles.length
    · rw [batchLoop_succ _ _ _ _ _ _ _ hi] at h
      obtain ⟨fs, hfs⟩ := loadBatch_events imreadOk imageFiles batchSize i
        { events := [], images := [], names := [], thrown := none }
      simp only [List.nil_append] at hfs
      cases hth : (loadBatch imreadOk imageFiles i batchSize
          { events := [], images := [], names := [], thrown := none }).thrown with
      | some what =>
        simp only [hth, Option.some.injEq] at h
        subst h
        simp only [neverStopsIdle, timerRun, hfs, List.foldl_append, timer_imread] at hrun ⊢
        exact hrun
      | none =>
        simp only [hth] at h
        refine ih _ _ _ h ?_
        simp only [neverStopsIdle, timerRun, hfs, List.foldl_append, timer_imread,
          timer_renderBatch] at hrun ⊢
        obtain ⟨b, hb⟩ := Option.isSome_iff_exists.mp hrun
        rw [hb]
        by_cases h5 : 5 < i
        · have hne : i ≠ 5 := by omega
          cases t <;> cases b <;> simp [h5, hne, timerStep]
        · by_cases hne : i = 5 <;> cases t <;> cases b <;> simp [h5, hne, timerStep]
    · rw [batchLoop_exit _ _ _ _ _ _ _ (by omega)] at h
      cases h; exact hrun

theorem main_directory (env : Env) (argv : List String) (a : Args) (env2 : Env)
    (batchSize : Nat) (run : TryRun)
    (hreach : ReachesDirectoryMode env argv a env2 batchSize)
    (hrun : directoryMode env2 a batchSize = some run) :
    main env argv = .exit
      { events := .createModel a.enginePath a.useCudaGraph :: run.events,
        stdout := (match run.thrown with
          | none => run.stdout ++ [.completed]
          | some _ => run.stdout),
        stderr := (match run.thrown with
          | none => []
          | some what => ["Error: " ++ what]),
        status := (match run.thrown with
          | none => 0
          | some _ => 1) } := by
  obtain ⟨hparse, ⟨labels, hval⟩, hmodel, hdir⟩ := hreach
  unfold main tryBody
  simp only [hparse, hval, hmodel, hdir, if_false, hrun]
  cases run.thrown <;> rfl

theorem mem_drop_take_index (l : List String) (a b : Nat) (f : String)
    (hf : f ∈ (l.drop a).take b) : ∃ m, a ≤ m ∧ m < a + b ∧ l[m]? = some f := by
  obtain ⟨n, hn⟩ := List.mem_iff_getElem?.mp hf
  rw [List.getElem?_take] at hn
  split at hn
  · rw [List.getElem?_drop] at hn
    exact ⟨a + n, by omega, by omega, hn⟩
  · cases hn

theorem take_drop_split (l : List String) (i j b : Nat) (bad : String)
    (hij : i ≤ j) (hjb : j < i + b) (hj : l[j]? = some bad) :
    (l.drop i).take b =
      (l.drop i).take (j - i) ++ bad :: (l.drop (j + 1)).take (b - (j - i) - 1) := by
  obtain ⟨hlt, hbad⟩ := List.getElem?_eq_some_iff.mp hj
  have hb : b = (j - i) + ((b - (j - i) - 1) + 1) := by omega
  conv_lhs => rw [hb, List.take_add, List.drop_drop]
  rw [show i + (j - i) = j by omega, List.drop_eq_getElem_cons hlt, hbad, List.take_succ_cons]

theorem batchLoop_decode_failure (imreadOk : String → Bool) (imageFiles : List String)
    (batchSize : Nat) (outputPath : String) (hB : 0 < batchSize) (j : Nat) (bad : String)
    (hj : imageFiles[j]? = some bad)
    (hbefore : ∀ m f, m < j → imageFiles[m]? = some f → imreadOk f = true)
    (hbad : imreadOk bad = false) (fuel : Nat) (hfuel : j / batchSize < fuel) :
    batchLoop imreadOk imageFiles batchSize outputPath fuel 0
        { events := [], count := 0, thrown := none } =
      some { events :=
               (List.range (j / batchSize)).flatMap
                 (fun k => batchEvents imageFiles batchSize outputPath (k * batchSize))
               ++ ((imageFiles.drop (j / batchSize * batchSize)).take
                    (j % batchSize + 1)).map Event.imread,
             count := ((List.range (j / batchSize)).filter (fun k => 5 < k * batchSize)).length,
             thrown := some ("Failed to read image from path: " ++ bad) } := by
  obtain ⟨hlt, _⟩ := List.getElem?_eq_some_iff.mp hj
  have hdm := Nat.div_add_mod j batchSize
  have hmod := Nat.mod_lt j hB
  rw [Nat.mul_comm] at hdm
  obtain ⟨rest, rfl⟩ : ∃ rest, fuel = (rest + 1) + j / batchSize :=
    ⟨fuel - 1 - j / batchSize, by omega⟩
  have hoff : ∀ k, k < j / batchSize → k * batchSize + batchSize ≤ j / batchSize * batchSize := by
    intro k hk
    rw [← Nat.succ_mul]
    exact Nat.mul_le_mul_right _ hk
  rw [batchLoop_steps imreadOk imageFiles batchSize outputPath _ (rest + 1) 0 _ rfl]
  · rw [batchLoop_succ _ _ _ _ _ _ _ (by omega)]
    have hsplit := take_drop_split imageFiles (0 + j / batchSize * batchSize) j batchSize bad
      (by omega) (by omega) hj
    rw [loadBatch_fail imreadOk imageFiles batchSize _ _ _ bad _ hsplit ?_ hbad]
    · simp only [afterBatches, List.nil_append, Nat.zero_add, List.map_append, List.map_cons,
        List.map_nil, Option.some.injEq, LoopRun.mk.injEq, and_true, true_and]
      have hm : j % batchSize = j - j / batchSize * batchSize := by omega
      rw [hm, List.take_succ, List.getElem?_drop,
        show j / batchSize * batchSize + (j - j / batchSize * batchSize) = j by omega, hj]
      simp
    · intro f hf
      obtain ⟨m, _, hm2, hm3⟩ := mem_drop_take_index _ _ _ f hf
      exact hbefore m f (by omega) hm3
  · intro k hk
    have := hoff k hk
    omega
  · intro k hk f hf
    obtain ⟨m, _, hm2, hm3⟩ := mem_drop_take_index _ _ _ f hf
    have := hoff k hk
    exact hbefore m f (by omega) hm3

/-! ## The command line -/

theorem lastValue_cons_hit (names : List String) (t v : String)
    (T : List (String × Option String)) (d : String) (h : t ∈ names) :
    lastValue names ((t, some v) :: T) d = lastValue names T v := by
  simp [lastValue, List.filterMap_cons, h, List.getLast?_cons]

theorem lastValue_cons_miss (names : List String) (t : String) (o : Option String)
    (T : List (String × Option String)) (d : String) (h : t ∉ names) :
    lastValue names ((t, o) :: T) d = lastValue names T d := by
  simp [lastValue, List.filterMap_cons, h]

theorem specResult_nil (a : Args) : specResult [] a = .returned a := by
  cases a
  simp [specResult, lastValue]

theorem flagTokens_cons_other (token : String) (tail : List String)
    (hv : token ∉ valueFlags) :
    flagTokens (token :: tail) = (token, none) :: flagTokens tail := by
  rw [flagTokens.eq_def]
  simp [hv]

theorem parseLoop_cuda (tail : List String) (i : Nat) (reads : List Nat) (a : Args) :
    parseLoop i ("--cudaGraph" :: tail) reads a =
      parseLoop (i + 1) tail (reads ++ [i]) { a with useCudaGraph := true } := by
  rw [parseLoop.eq_def]
  simp

theorem parseLoop_unknown (token : String) (tail : List String) (i : Nat) (reads : List Nat)
    (a : Args) (h1 : ¬ (token = "-e" ∨ token = "--engine"))
    (h2 : ¬ (token = "-i" ∨ token = "--input")) (h3 : ¬ (token = "-o" ∨ token = "--output"))
    (h4 : ¬ (token = "-l" ∨ token = "--labels")) (hc : token ≠ "--cudaGraph") :
    parseLoop i (token :: tail) reads a =
      { reads := reads ++ [i], result := .exited ["Unknown argument: " ++ token] 1 } := by
  rw [parseLoop.eq_def]
  simp [h1, h2, h3, h4, hc]

theorem parseLoop_spec :
    ∀ (rest : List String) (i : Nat) (reads : List Nat) (a : Args),
      ((∀ p ∈ flagTokens rest, recognized p.1 = true) → ValuesPresent (flagTokens rest)) →
      (parseLoop i rest reads a).result = specResult (flagTokens rest) a := by
  intro rest
  induction rest using flagTokens.induct with
  | case1 =>
    intro i reads a _
    simp [parseLoop, flagTokens, specResult_nil]
  | case2 token hv =>
    intro i reads a h
    exfalso
    have hp := h (by
      intro p hp
      simp only [flagTokens, hv, if_true, List.mem_singleton] at hp
      subst hp
      simp [recognized, hv]) (token, none) (by simp [flagTokens, hv]) hv
    simp at hp
  | case3 token hv value rest ih =>
    intro i reads a h
    have hrec : recognized token = true := by simp [recognized, hv]
    have h2 : (∀ p ∈ flagTokens rest, recognized p.1 = true) → ValuesPresent (flagTokens rest) := by
      intro hall p hp
      refine h ?_ p (by simp [flagTokens, hv, hp])
      intro q hq
      simp only [flagTokens, hv, if_true, List.mem_cons] at hq
      rcases hq with rfl | hq
      · exact hrec
      · exact hall q hq
    simp only [valueFlags, List.mem_cons, List.mem_singleton, List.not_mem_nil, or_false] at hv
    rcases hv with rfl | rfl | rfl | rfl | rfl | rfl | rfl | rfl <;>
      · simp only [parseLoop, String.reduceEq, or_false, or_true, true_or, false_or, if_true,
          if_false, reduceIte]
        rw [ih _ _ _ h2]
        simp [specResult, flagTokens, recognized, valueFlags, lastValue_cons_hit,
          lastValue_cons_miss]
  | case4 token tail hv ih =>
    intro i reads a h
    have hft : flagTokens (token :: tail) = (token, none) :: flagTokens tail :=
      flagTokens_cons_other token tail hv
    have hne : ¬ (token = "-e" ∨ token = "--engine") ∧ ¬ (token = "-i" ∨ token = "--input") ∧
        ¬ (token = "-o" ∨ token = "--output") ∧ ¬ (token = "-l" ∨ token = "--labels") := by
      simp only [valueFlags, List.mem_cons, List.mem_singleton, List.not_mem_nil, or_false,
        not_or] at hv ⊢
      tauto
    obtain ⟨h1, h2, h3, h4⟩ := hne
    by_cases hc : token = "--cudaGraph"
    · subst hc
      have h5 : (∀ p ∈ flagTokens tail, recognized p.1 = true) →
          ValuesPresent (flagTokens tail) := by
        intro hall p hp
        refine h ?_ p (by simp [hft, hp])
        intro q hq
        simp only [hft, List.mem_cons] at hq
        rcases hq with rfl | hq
        · simp [recognized]
        · exact hall q hq
      rw [parseLoop_cuda, ih _ _ _ h5, hft]
      simp [specResult, recognized, valueFlags, lastValue_cons_miss]
    · rw [parseLoop_unknown token tail i reads a h1 h2 h3 h4 hc, hft]
      simp [specResult, recognized, hv, hc]

/-! ## The directory scan and the checks before the model is created -/

theorem createOutputDirectory_spec (env : Env) (outputPath : String) :
    (∀ what, outputDirectoryFailure env outputPath = some what →
      createOutputDirectory env outputPath = .error what) ∧
    (outputDirectoryFailure env outputPath = none →
      ∃ env2, createOutputDirectory env outputPath = .ok env2) := by
  unfold outputDirectoryFailure createOutputDirectory
  cases hk : env.kind outputPath with
  | none =>
    cases hc : env.createDirectories outputPath <;> simp
  | some k =>
    cases k <;> simp

theorem validate_spec (env : Env) (a : Args) :
    (∀ what, firstFailure env a = some what → validate env a = .error what) ∧
    (firstFailure env a = none → ∃ labels env2, validate env a = .ok (labels, env2)) := by
  obtain ⟨hd1, hd2⟩ := createOutputDirectory_spec env a.outputPath
  unfold firstFailure validationChecks validate generateLabels
  by_cases h1 : env.kind a.enginePath = none
  · simp [h1]
  · by_cases h2 : env.kind a.inputPath = some .regular ∨ env.kind a.inputPath = some .directory
    · have h2b : ¬ (env.kind a.inputPath = none ∨
          (env.kind a.inputPath ≠ some .regular ∧ env.kind a.inputPath ≠ some .directory)) := by
        rcases h2 with h | h <;> simp [h]
      by_cases h3 : a.outputPath = ""
      · simp [h1, h2, h2b, h3]
      · by_cases h4 : a.labelPath = ""
        · simp [h1, h2, h2b, h3, h4]
        · by_cases h5 : env.kind a.labelPath = none
          · simp [h1, h2, h2b, h3, h4, h5]
          · cases h6 : env.readLines a.labelPath with
            | none => simp [h1, h2, h2b, h3, h4, h5, h6]
            | some labels =>
              cases h7 : outputDirectoryFailure env a.outputPath with
              | none =>
                obtain ⟨env2, he⟩ := hd2 h7
                simp [h1, h2, h2b, h3, h4, h5, h6, h7, he]
              | some what =>
                have he := hd1 what h7
                simp [h1, h2, h2b, h3, h4, h5, h6, h7, he]
    · have h2b : env.kind a.inputPath = none ∨
          (env.kind a.inputPath ≠ some .regular ∧ env.kind a.inputPath ≠ some .directory) := by
        right
        exact not_or.mp h2
      simp [h1, h2, h2b]

/-! ## The sample runs reach the directory branch -/

theorem sample_reaches (entries : List DirEntry) (batch : Nat) (broken : List String) :
    ReachesDirectoryMode (sampleEnv entries batch broken) sampleArgv sampleArgs
      (sampleEnv entries batch broken) batch :=
  ⟨by decide, ⟨[], rfl⟩, rfl, by simp [sampleEnv, sampleArgs]⟩

/-! ## Rendering -/

theorem visualizeLoop_never_throws (textSize : String → Nat → Int × Int) (result : DetResult)
    (labels : List String) (what : String) :
    ∀ (r i : Nat) (ops : List DrawOp),
      visualizeLoop textSize result labels i r ops ≠ .threw what := by
  intro r
  induction r with
  | zero => intro i ops; simp [visualizeLoop]
  | succ r ih =>
    intro i ops
    unfold visualizeLoop
    cases result.boxes[i]? with
    | none => simp
    | some box =>
      cases result.classes[i]? with
      | none => simp
      | some cls =>
        cases result.scores[i]? with
        | none => simp
        | some score =>
          by_cases hneg : cls < 0
          · simp [hneg]
          · cases hl : labels[cls.toNat]? with
            | none => simp [hneg, hl]
            | some label => simpa [hneg, hl] using ih _ _

/-! ## The directory scan, and the shape of every run of the batch loop -/

theorem scanEntries_ok (entries : List DirEntry) :
    ∀ acc : List String, (∀ e ∈ entries, ∀ what, e.isRegularFile ≠ .throws what) →
      scanEntries entries acc = .ok (acc ++ (entries.filter isImageEntry).map DirEntry.path) := by
  induction entries with
  | nil => intro acc _; simp [scanEntries]
  | cons e es ih =>
    intro acc h
    have hes : ∀ x ∈ es, ∀ what, x.isRegularFile ≠ .throws what :=
      fun x hx => h x (List.mem_cons_of_mem e hx)
    unfold scanEntries
    cases hreg : e.isRegularFile with
    | throws what => exact absurd hreg (h e (List.mem_cons_self e es) what)
    | no =>
      simp only []
      rw [ih acc hes]
      simp [isImageEntry, hreg]
    | yes =>
      simp only []
      by_cases hext : extension e.path = ".jpg" ∨ extension e.path = ".png" ∨
          extension e.path = ".jpeg" ∨ extension e.path = ".bmp"
      · rw [if_pos hext, ih _ hes]
        have : isImageEntry e = true := by
          simp only [isImageEntry, hreg, Bool.and_eq_true, decide_eq_true_eq, List.mem_cons,
            List.mem_singleton, List.not_mem_nil, or_false, true_and]
          tauto
        simp [this]
      · rw [if_neg hext, ih _ hes]
        have : isImageEntry e = false := by
          simp only [isImageEntry, hreg, Bool.and_eq_false_iff, decide_eq_false_iff_not,
            List.mem_cons, List.mem_singleton, List.not_mem_nil, or_false]
          right
          tauto
        simp [this]

theorem scanEntries_throws (pre : List DirEntry) (e : DirEntry) (post : List DirEntry)
    (what : String) (hpre : ∀ x ∈ pre, ∀ w, x.isRegularFile ≠ .throws w)
    (he : e.isRegularFile = .throws what) :
    ∀ acc : List String, scanEntries (pre ++ e :: post) acc = .error what := by
  induction pre with
  | nil =>
    intro acc
    simp [scanEntries, he]
  | cons x xs ih =>
    intro acc
    have hxs : ∀ y ∈ xs, ∀ w, y.isRegularFile ≠ .throws w :=
      fun y hy => hpre y (List.mem_cons_of_mem x hy)
    rw [List.cons_append]
    unfold scanEntries
    cases hreg : x.isRegularFile with
    | throws w => exact absurd hreg (hpre x (List.mem_cons_self x xs) w)
    | no => exact ih hxs acc
    | yes =>
      simp only []
      split
      · exact ih hxs _
      · exact ih hxs _

theorem directoryMode_all (env : Env) (a : Args) (batchSize : Nat) (files : List String)
    (hscan : getImagesInDirectory (env.listing a.inputPath) = .ok files)
    (hK : files ≠ []) (hB : 0 < batchSize)
    (hok : ∀ f ∈ files, env.imreadOk f = true) :
    directoryMode env a batchSize =
      some { events := directoryEvents files batchSize a.outputPath,
             stdout :=
               if 0 < (measuredBatches files.length batchSize).length then
                 [.averageCpu (measuredBatches files.length batchSize).length,
                  .averageGpu (measuredBatches files.length batchSize).length]
               else [],
             thrown := none } := by
  unfold directoryMode
  simp only [hscan, hK, if_false]
  rw [batchLoop_all env.imreadOk _ batchSize a.outputPath _ hB (batchCount_le _ _ hB) hok]
  simp [afterBatches, directoryEvents, measuredBatches]

theorem first_undecodable (imreadOk : String → Bool) (files : List String)
    (h : ¬ ∀ f ∈ files, imreadOk f = true) :
    ∃ (j : Nat) (bad : String), files[j]? = some bad ∧ imreadOk bad = false ∧
      ∀ (m : Nat) (f : String), m < j → files[m]? = some f → imreadOk f = true := by
  induction files with
  | nil => exact absurd (by simp) h
  | cons x xs ih =>
    by_cases hx : imreadOk x = true
    · have hxs : ¬ ∀ f ∈ xs, imreadOk f = true := by
        intro hall
        apply h
        intro f hf
        rcases List.mem_cons.mp hf with rfl | hf
        · exact hx
        · exact hall f hf
      obtain ⟨j, bad, hj, hbad, hbefore⟩ := ih hxs
      refine ⟨j + 1, bad, by simpa using hj, hbad, ?_⟩
      intro m f hm hf
      cases m with
      | zero =>
        simp at hf
        subst hf
        exact hx
      | succ m => exact hbefore m f (by omega) (by simpa using hf)
    · refine ⟨0, x, by simp, by simpa using hx, ?_⟩
      intro m f hm
      omega

/-- For a positive batch size the batch loop ends, and its calls are those of
`n` complete iterations followed by `imread` calls only. -/
theorem batchLoop_shape (imreadOk : String → Bool) (files : List String) (batchSize : Nat)
    (outputPath : String) (hB : 0 < batchSize) :
    ∃ (r : LoopRun) (n : Nat) (fs : List String), batchLoop imreadOk files batchSize outputPath files.length 0
          { events := [], count := 0, thrown := none } = some r ∧
      r.events = (List.range n).flatMap
          (fun k => batchEvents files batchSize outputPath (k * batchSize))
        ++ fs.map Event.imread := by
  by_cases hall : ∀ f ∈ files, imreadOk f = true
  · refine ⟨_, batchCount files.length batchSize, [],
      batchLoop_all imreadOk files batchSize outputPath files.length hB
        (batchCount_le _ _ hB) hall, ?_⟩
    simp [afterBatches]
  · obtain ⟨j, bad, hj, hbad, hbefore⟩ := first_undecodable imreadOk files hall
    obtain ⟨hlt, _⟩ := List.getElem?_eq_some_iff.mp hj
    exact ⟨_, j / batchSize, _,
      batchLoop_decode_failure imreadOk files batchSize outputPath hB j bad hj hbefore hbad
        files.length (lt_of_le_of_lt (Nat.div_le_self j batchSize) hlt), rfl⟩

theorem directoryMode_shape (env : Env) (a : Args) (batchSize : Nat) (files : List String)
    (hscan : getImagesInDirectory (env.listing a.inputPath) = .ok files) (hB : 0 < batchSize) :
    ∃ (run : TryRun) (n : Nat) (fs : List String), directoryMode env a batchSize = some run ∧
      run.events = (List.range n).flatMap
          (fun k => batchEvents files batchSize a.outputPath (k * batchSize))
        ++ fs.map Event.imread := by
  unfold directoryMode
  simp only [hscan]
  by_cases hK : files = []
  · simp only [hK, if_true]
    exact ⟨_, 0, [], rfl, rfl⟩
  · simp only [hK, if_false]
    obtain ⟨r, n, fs, hr, hev⟩ := batchLoop_shape env.imreadOk files batchSize a.outputPath hB
    simp only [hr]
    cases hth : r.thrown with
    | none => exact ⟨_, n, fs, rfl, hev⟩
    | some what => exact ⟨_, n, fs, rfl, hev⟩

theorem timerCalls_append (xs ys : List Event) :
    timerCalls (xs ++ ys) = timerCalls xs ++ timerCalls ys := by
  induction xs with
  | nil => rfl
  | cons e xs ih => cases e <;> simp [timerCalls, ih]

theorem timerCalls_imread (fs : List String) : timerCalls (fs.map Event.imread) = [] := by
  induction fs with
  | nil => rfl
  | cons f fs ih => simp [timerCalls, ih]

theorem timerCalls_renderBatch (outputPath : String) :
    ∀ images names : List String, timerCalls (renderBatch outputPath images names) = [] := by
  intro images
  induction images with
  | nil => intro names; simp [renderBatch, timerCalls]
  | cons image images ih =>
    intro names
    cases names with
    | nil => simp [renderBatch, timerCalls]
    | cons name names =>
      by_cases h : outputPath = "" <;> simp [renderBatch, timerCalls, h, ih]

theorem timerCalls_batchEvents (imageFiles : List String) (batchSize : Nat)
    (outputPath : String) (i : Nat) :
    timerCalls (batchEvents imageFiles batchSize outputPath i) = batchTimerCalls i := by
  unfold batchEvents batchTimerCalls
  by_cases h5 : i = 5 <;> by_cases h6 : 5 < i <;>
    simp [timerCalls_append, timerCalls_imread, timerCalls_renderBatch, timerCalls, h5, h6]

theorem timerCalls_flatMap (imageFiles : List String) (batchSize : Nat)
    (outputPath : String) (ks : List Nat) :
    timerCalls (ks.flatMap
        (fun k => batchEvents imageFiles batchSize outputPath (k * batchSize))) =
      ks.flatMap (fun k => batchTimerCalls (k * batchSize)) := by
  induction ks with
  | nil => rfl
  | cons k ks ih => simp [List.flatMap_cons, timerCalls_append, timerCalls_batchEvents, ih]

/-! ## What the timers enclose -/

theorem timer_batchEvents (t : TimerId) (imageFiles : List String) (batchSize : Nat)
    (outputPath : String) (i : Nat) (b : Bool) :
    ∃ b2, (batchEvents imageFiles batchSize outputPath i).foldl (timerStep false t) (some b) =
      some b2 := by
  unfold batchEvents
  simp only [List.foldl_append, timer_imread, timer_renderBatch]
  by_cases h5 : 5 < i
  · have hne : i ≠ 5 := by omega
    cases t <;> cases b <;> simp [h5, hne, timerStep]
  · by_cases hne : i = 5 <;> cases t <;> cases b <;> simp [h5, hne, timerStep]

theorem neverStopsIdle_shape (t : TimerId) (imageFiles : List String) (batchSize : Nat)
    (outputPath : String) (fs : List String) :
    ∀ n, neverStopsIdle t
      ((List.range n).flatMap
          (fun k => batchEvents imageFiles batchSize outputPath (k * batchSize))
        ++ fs.map Event.imread) := by
  have key : ∀ n, ∃ b, ((List.range n).flatMap
      (fun k => batchEvents imageFiles batchSize outputPath (k * batchSize))).foldl
        (timerStep false t) (some false) = some b := by
    intro n
    induction n with
    | zero => exact ⟨false, rfl⟩
    | succ n ih =>
      obtain ⟨b, hb⟩ := ih
      obtain ⟨b2, hb2⟩ := timer_batchEvents t imageFiles batchSize outputPath (n * batchSize) b
      refine ⟨b2, ?_⟩
      rw [List.range_succ, List.flatMap_append, List.foldl_append, hb]
      simpa using hb2
  intro n
  obtain ⟨b, hb⟩ := key n
  simp [neverStopsIdle, timerRun, List.foldl_append, timer_imread, hb]

/-! ## The command line, away from the missing bounds test -/

/-- Away from a value-taking flag as last token, the loop does what the
usage text says: exit code 1 and the usage line when fewer than four tokens
follow the program name, exit code 1 at the first unrecognized token in flag
position, and otherwise each path set to the token after the last occurrence
of its flag (unchanged without one) and `useCudaGraph` set when `--cudaGraph`
occurs in flag position. -/
theorem parseArguments_meets_usage (argv : List String) (a : Args)
    (h : 5 ≤ argv.length → (∀ p ∈ flagTokens (argv.drop 1), recognized p.1 = true) →
      ValuesPresent (flagTokens (argv.drop 1))) :
    (parseArguments argv a).result = parseSpec argv a := by
  unfold parseArguments parseSpec
  by_cases hlen : argv.length < 5
  · simp [hlen]
  · simp only [hlen, if_false]
    exact parseLoop_spec _ _ _ _ (h (by omega))

/-- Both spellings of a flag, a repeated flag and `--cudaGraph`. -/
theorem parseArguments_meets_usage_example :
    (parseArguments
        ["detect", "-e", "a.engine", "--input", "imgs", "--cudaGraph", "--engine", "b.engine"]
        Args.initial).result =
      .returned { enginePath := "b.engine", inputPath := "imgs", outputPath := "",
                  labelPath := "", useCudaGraph := true } :=
  (parseArguments_meets_usage
    ["detect", "-e", "a.engine", "--input", "imgs", "--cudaGraph", "--engine", "b.engine"]
    Args.initial (fun _ _ => by unfold ValuesPresent; decide)).trans (by decide)

/-! ## The claims -/

/-- C1: in directory mode, with a file list of at least one image, a positive
batch size and every image decoding, the batches handed to `predict` are the
file list cut in order into consecutive chunks of `batchSize` images: batch `k`
is `imageFiles[k * batchSize ..]` truncated to `batchSize` images, there are
`ceil(K / batchSize)` of them (the least `n` with `K ≤ n * batchSize`), every
batch but the last has `batchSize` images, the last has `K mod batchSize` images
when that is not 0 and `batchSize` otherwise, and the concatenation of the
batches is the file list.  A run of `main` that reaches this branch makes these
calls after `createModel`, ends its output with the completion line and exits
with status 0. -/
theorem directory_batches_are_chunks (env : Env) (a : Args) (batchSize : Nat)
    (files : List String)
    (hscan : getImagesInDirectory (env.listing a.inputPath) = .ok files)
    (hK : files ≠ []) (hB : 0 < batchSize)
    (hok : ∀ f ∈ files, env.imreadOk f = true) :
    ∃ run, directoryMode env a batchSize = some run ∧ run.thrown = none ∧
      predictCalls run.events =
        (List.range (batchCount files.length batchSize)).map
          (fun k => (files.drop (k * batchSize)).take batchSize) ∧
      (predictCalls run.events).length = (files.length + batchSize - 1) / batchSize ∧
      files.length ≤ (predictCalls run.events).length * batchSize ∧
      ((predictCalls run.events).length - 1) * batchSize < files.length ∧
      (∀ k, k + 1 < (predictCalls run.events).length →
        ((predictCalls run.events)[k]?).map List.length = some batchSize) ∧
      (predictCalls run.events).getLast?.map List.length =
        some (if files.length % batchSize ≠ 0 then files.length % batchSize else batchSize) ∧
      (predictCalls run.events).flatten = files ∧
      (∀ (env0 : Env) (argv : List String), ReachesDirectoryMode env0 argv a env batchSize →
        main env0 argv = .exit
          { events := .createModel a.enginePath a.useCudaGraph :: run.events,
            stdout := run.stdout ++ [.completed], stderr := [], status := 0 }) := by
  have hmode := directoryMode_all env a batchSize files hscan hK hB hok
  have hKpos : 0 < files.length := List.length_pos.mpr hK
  obtain ⟨h1, h2, h3⟩ := batchCount_mul_le files.length batchSize hB hKpos
  have hcalls : predictCalls (directoryEvents files batchSize a.outputPath) =
      (List.range (batchCount files.length batchSize)).map
        (fun k => (files.drop (k * batchSize)).take batchSize) := by
    have := predictCalls_flatMap files batchSize a.outputPath 0
      (List.range (batchCount files.length batchSize))
    simpa [directoryEvents, chunkAt] using this
  refine ⟨_, hmode, rfl, ?_⟩
  have hlen : (predictCalls (directoryEvents files batchSize a.outputPath)).length =
      batchCount files.length batchSize := by simp [hcalls]
  refine ⟨hcalls, by rw [hlen]; rfl, by rw [hlen]; exact h2, by rw [hlen]; exact h1, ?_, ?_, ?_,
    fun env0 argv hreach => main_directory env0 argv a env batchSize _ hreach hmode⟩
  · intro k hk
    rw [hlen] at hk
    have hlt := offset_lt_of_lt_batchCount files.length batchSize (k + 1) hB hk
    rw [Nat.succ_mul] at hlt
    rw [hcalls, List.getElem?_map,
      List.getElem?_range (show k < batchCount files.length batchSize by omega)]
    simp only [Option.map_some', List.length_take, List.length_drop, Option.some.injEq]
    omega
  · rw [List.getLast?_eq_getElem?, hlen, hcalls, List.getElem?_map, List.getElem?_range (by omega)]
    simp only [Option.map_some', List.length_take, List.length_drop]
    rw [last_chunk_length files.length batchSize hB hKpos]
  · have := flatten_chunks files batchSize (batchCount files.length batchSize)
    simp only [chunkAt] at this
    rw [hcalls, this, List.take_of_length_le h2]

/-- The seven images of the sample directory with batch size 4 give two
`predict` calls, of 4 and of 3 images. -/
theorem directory_batches_are_chunks_witness :
    ∃ run, directoryMode (sampleEnv sevenImages 4 []) sampleArgs 4 = some run ∧
      predictCalls run.events =
        [["imgs/0.jpg", "imgs/1.jpg", "imgs/2.png", "imgs/3.jpg"],
         ["imgs/4.bmp", "imgs/5.jpg", "imgs/6.jpeg"]] ∧
      main (sampleEnv sevenImages 4 []) sampleArgv = .exit
        { events := .createModel "model.engine" false :: run.events,
          stdout := run.stdout ++ [.completed], stderr := [], status := 0 } :=
  match directory_batches_are_chunks (sampleEnv sevenImages 4 []) sampleArgs 4 sevenPaths
      rfl (by decide) (by decide) (by decide) with
  | ⟨run, hrun, _, hcalls, _, _, _, _, _, _, hmain⟩ =>
    ⟨run, hrun, hcalls.trans (by decide), hmain _ _ (sample_reaches sevenImages 4 [])⟩

/-- C3, as the claim states it, fails: with two images and batch size 1 the
loop calls `start()` at offset 0 and again at offset 1 with no `stop()` in
between, so `start()` is called on a running timer. -/
theorem start_called_on_running_timer :
    ∃ run, directoryMode (sampleEnv twoImages 1 []) sampleArgs 1 = some run ∧
      run.events =
        [.imread "imgs/0.jpg", .start .cpu, .start .gpu, .predict ["imgs/0.jpg"],
         .imread "imgs/1.jpg", .start .cpu, .start .gpu, .predict ["imgs/1.jpg"]] ∧
      ¬ respectsStateMachine .cpu run.events ∧ ¬ respectsStateMachine .gpu run.events :=
  ⟨_, rfl, by decide, by decide, by decide⟩

/-- C3, amended: every directory run with a positive batch size ends, whether
or not the images decode, and its calls are those of `n` complete iterations at
the image offsets `0, B, 2 B, ...`, one per `predict` call, followed at most by
`imread` calls of an iteration that a decode failure broke off.  A complete
iteration at offset `i` calls `start()` on the host and the device timer before
`predict` exactly when `i ≠ 5`, and `stop()` on the device and the host timer
after `predict` exactly when `i > 5`.  So every `stop()` follows a `start()` of
the same timer in the same iteration and no `stop()` is ever called on an idle
timer, while `start()` on a running timer is not excluded. -/
theorem stop_never_called_on_idle_timer (env : Env) (a : Args) (batchSize : Nat)
    (files : List String)
    (hscan : getImagesInDirectory (env.listing a.inputPath) = .ok files)
    (hB : 0 < batchSize) :
    ∃ (run : TryRun) (n : Nat) (fs : List String),
      directoryMode env a batchSize = some run ∧
      run.events =
        (List.range n).flatMap (fun k =>
          ((files.drop (k * batchSize)).take batchSize).map Event.imread
            ++ (if k * batchSize ≠ 5 then [.start .cpu, .start .gpu] else [])
            ++ [.predict ((files.drop (k * batchSize)).take batchSize)]
            ++ (if 5 < k * batchSize then [.stop .gpu, .stop .cpu] else [])
            ++ renderBatch a.outputPath ((files.drop (k * batchSize)).take batchSize)
                (((files.drop (k * batchSize)).take batchSize).map filename))
          ++ fs.map Event.imread ∧
      (predictCalls run.events).length = n ∧
      timerCalls run.events =
        (List.range n).flatMap (fun k =>
          (if k * batchSize ≠ 5 then [.start .cpu, .start .gpu] else [])
            ++ (if 5 < k * batchSize then [.stop .gpu, .stop .cpu] else [])) ∧
      ∀ t, neverStopsIdle t run.events := by
  obtain ⟨run, n, fs, hrun, hev⟩ := directoryMode_shape env a batchSize files hscan hB
  refine ⟨run, n, fs, hrun, hev, ?_, ?_, ?_⟩
  · rw [hev, predictCalls_append, predictCalls_imread, List.append_nil]
    have := predictCalls_flatMap files batchSize a.outputPath 0 (List.range n)
    simp only [Nat.zero_add] at this
    rw [this, List.length_map, List.length_range]
  · rw [hev, timerCalls_append, timerCalls_imread, List.append_nil, timerCalls_flatMap]
    rfl
  · intro t
    rw [hev]
    exact neverStopsIdle_shape t files batchSize a.outputPath fs n

/-- Seven images with batch size 3: the iterations at offsets 0 and 3 start
the timers without stopping them, the one at offset 6 starts and stops them. -/
theorem stop_never_called_on_idle_timer_witness :
    ∃ run, directoryMode (sampleEnv sevenImages 3 []) sampleArgs 3 = some run ∧
      timerCalls run.events =
        [.start .cpu, .start .gpu, .start .cpu, .start .gpu,
         .start .cpu, .start .gpu, .stop .gpu, .stop .cpu] ∧
      neverStopsIdle .cpu run.events ∧ neverStopsIdle .gpu run.events :=
  match stop_never_called_on_idle_timer (sampleEnv sevenImages 3 []) sampleArgs 3 sevenPaths
      rfl (by decide) with
  | ⟨run, _, _, hrun, _, _, _, hidle⟩ =>
    have hr : some run = some (TryRun.mk (directoryEvents sevenPaths 3 "")
        [.averageCpu 1, .averageGpu 1] none) :=
      hrun.symm.trans (by decide)
    ⟨run, hrun, by rw [Option.some.inj hr]; decide, hidle .cpu, hidle .gpu⟩

/-- C4, as the claim states it, fails: a directory whose only entry is a
symbolic link `loop.jpg` to itself contains no regular file with an image
extension, and yet `getImagesInDirectory` does not return the empty list: the
status query throws, and the run ends with that error and not with the
no-images error. -/
theorem scan_throws_on_symlink_loop :
    (∀ e ∈ loopOnly, ¬ (e.isRegularFile = .yes ∧
      extension e.path ∈ [".jpg", ".jpeg", ".png", ".bmp"])) ∧
    getImagesInDirectory loopOnly = .error
      "filesystem error: status: Too many levels of symbolic links [imgs/loop.jpg]" ∧
    main (sampleEnv loopOnly 4 []) sampleArgv = .exit
      { events := [.createModel "model.engine" false],
        stdout := [],
        stderr := ["Error: filesystem error: status: Too many levels of symbolic links [imgs/loop.jpg]"],
        status := 1 } ∧
    main (sampleEnv loopOnly 4 []) sampleArgv ≠ .exit
      { events := [.createModel "model.engine" false],
        stdout := [],
        stderr := ["Error: No image files found in the directory: imgs"],
        status := 1 } :=
  ⟨by decide, rfl, by decide, by decide⟩

/-- C4, amended: when `fs::is_regular_file` answers on every entry of the
listing, `getImagesInDirectory` returns the paths of exactly the entries that
are regular files with extension `.jpg`, `.jpeg`, `.png` or `.bmp` (compared as
written, so case-sensitively), in enumeration order; if there is none, the
result is empty and a run that reaches the directory branch ends with the
no-images error on standard error and exit status 1, after `createModel` and
without `imread` or `predict`.  When `fs::is_regular_file` throws on an entry,
the scan ends at the first such entry with that exception, and the run ends
with its message on standard error and exit status 1, again without `imread`
or `predict`. -/
theorem directory_scan_keeps_images_only (entries : List DirEntry) (env : Env)
    (argv : List String) (a : Args) (env2 : Env) (batchSize : Nat) :
    ((∀ e ∈ entries, ∀ what, e.isRegularFile ≠ .throws what) →
      getImagesInDirectory entries =
        .ok ((entries.filter isImageEntry).map DirEntry.path)) ∧
    (ReachesDirectoryMode env argv a env2 batchSize →
      env2.listing a.inputPath = entries →
      (∀ e ∈ entries, ∀ what, e.isRegularFile ≠ .throws what) →
      (∀ e ∈ entries, ¬ (e.isRegularFile = .yes ∧
        extension e.path ∈ [".jpg", ".jpeg", ".png", ".bmp"])) →
      getImagesInDirectory entries = .ok [] ∧
      main env argv = .exit
        { events := [.createModel a.enginePath a.useCudaGraph],
          stdout := [],
          stderr := ["Error: No image files found in the directory: " ++ a.inputPath],
          status := 1 }) ∧
    (∀ (pre : List DirEntry) (e : DirEntry) (post : List DirEntry) (what : String),
      entries = pre ++ e :: post →
      (∀ x ∈ pre, ∀ w, x.isRegularFile ≠ .throws w) →
      e.isRegularFile = .throws what →
      getImagesInDirectory entries = .error what ∧
      (ReachesDirectoryMode env argv a env2 batchSize →
        env2.listing a.inputPath = entries →
        main env argv = .exit
          { events := [.createModel a.enginePath a.useCudaGraph],
            stdout := [],
            stderr := ["Error: " ++ what],
            status := 1 })) := by
  refine ⟨fun h => by simpa [getImagesInDirectory] using scanEntries_ok entries [] h, ?_, ?_⟩
  · intro hreach hlist hanswers hnone
    have hempty : getImagesInDirectory entries = .ok [] := by
      have h := scanEntries_ok entries [] hanswers
      have hfilter : entries.filter isImageEntry = [] := by
        rw [List.filter_eq_nil_iff]
        intro e he
        have := hnone e he
        simpa [isImageEntry] using this
      simpa [getImagesInDirectory, hfilter] using h
    refine ⟨hempty, ?_⟩
    have hrun : directoryMode env2 a batchSize =
        some { events := [], stdout := [],
               thrown := some ("No image files found in the directory: " ++ a.inputPath) } := by
      simp [directoryMode, hlist, hempty]
    exact main_directory env argv a env2 batchSize _ hreach hrun
  · intro pre e post what hsplit hpre he
    have hthrow : getImagesInDirectory entries = .error what := by
      rw [hsplit]
      exact scanEntries_throws pre e post what hpre he []
    refine ⟨hthrow, ?_⟩
    intro hreach hlist
    have hrun : directoryMode env2 a batchSize =
        some { events := [], stdout := [], thrown := some what } := by
      simp [directoryMode, hlist, hthrow]
    exact main_directory env argv a env2 batchSize _ hreach hrun

/-- A directory with `a.JPG`, `notes.txt` and a sub-directory `x.jpg` gives the
no-images error; a directory with an image followed by a symbolic link to
itself gives the error of the status query. -/
theorem directory_scan_keeps_images_only_witness :
    (getImagesInDirectory noImages = .ok [] ∧
      main (sampleEnv noImages 4 []) sampleArgv = .exit
        { events := [.createModel "model.engine" false],
          stdout := [],
          stderr := ["Error: No image files found in the directory: imgs"],
          status := 1 }) ∧
    (getImagesInDirectory (twoImages ++ loopOnly) = .error
        "filesystem error: status: Too many levels of symbolic links [imgs/loop.jpg]" ∧
      main (sampleEnv (twoImages ++ loopOnly) 4 []) sampleArgv = .exit
        { events := [.createModel "model.engine" false],
          stdout := [],
          stderr := ["Error: " ++
            "filesystem error: status: Too many levels of symbolic links [imgs/loop.jpg]"],
          status := 1 }) :=
  ⟨(directory_scan_keeps_images_only noImages (sampleEnv noImages 4 []) sampleArgv sampleArgs
      (sampleEnv noImages 4 []) 4).2.1 (sample_reaches noImages 4 []) rfl
      (by
        intro e he what h
        simp only [noImages, List.mem_cons, List.mem_singleton, List.not_mem_nil,
          or_false] at he
        rcases he with rfl | rfl | rfl <;> exact RegularTest.noConfusion h)
      (by decide),
   match (directory_scan_keeps_images_only (twoImages ++ loopOnly)
      (sampleEnv (twoImages ++ loopOnly) 4 []) sampleArgv sampleArgs
      (sampleEnv (twoImages ++ loopOnly) 4 []) 4).2.2 twoImages
      ⟨"imgs/loop.jpg", .throws
        "filesystem error: status: Too many levels of symbolic links [imgs/loop.jpg]"⟩ []
      "filesystem error: status: Too many levels of symbolic links [imgs/loop.jpg]"
      rfl
      (by
        intro x hx w h
        simp only [twoImages, List.mem_cons, List.mem_singleton, List.not_mem_nil,
          or_false] at hx
        rcases hx with rfl | rfl <;> exact RegularTest.noConfusion h)
      rfl with
   | ⟨hscan, hmain⟩ => ⟨hscan, hmain (sample_reaches _ 4 []) rfl⟩⟩

/-- C5 fails on the code: for a detection with class id 7 and a label table
of length 5, `visualize` evaluates `labels[7]` with the unchecked `operator[]`,
an out-of-bounds read, and no input at all makes `visualize` throw. -/
theorem visualize_reads_labels_out_of_bounds :
    visualize (fun _ _ => (40, 12))
        { num := 1, boxes := [⟨10, 20, 30, 40⟩], classes := [7], scores := [900] }
        ["a", "b", "c", "d", "e"] = .outOfBoundsRead 7 5 ∧
    ∀ (textSize : String → Nat → Int × Int) (result : DetResult) (labels : List String)
      (what : String), visualize textSize result labels ≠ .threw what :=
  ⟨by decide, fun textSize result labels what =>
    visualizeLoop_never_throws textSize result labels what _ _ _⟩

/-- C6: after `parseArguments` has returned, the checks are made in the order
(1) engine path exists, (2) input path exists and is a regular file or a
directory, (3) a labels path is given, (4) the labels path exists and opens,
(5) the output directory exists or is created, with (3)-(5) only when an
output path is given.  The first check that fails decides the message, the
exit status is 1 and no call (no `createModel`, no `imread`) has been made; if
none fails the checks pass; and without an output path (1) and (2) suffice,
whatever the labels path. -/
theorem validation_order (env : Env) (argv : List String) (a : Args)
    (hparse : (parseArguments argv Args.initial).result = .returned a) :
    (∀ what, firstFailure env a = some what →
      main env argv = .exit
        { events := [], stdout := [], stderr := ["Error: " ++ what], status := 1 }) ∧
    (firstFailure env a = none → ∃ labels env2, validate env a = .ok (labels, env2)) ∧
    (a.outputPath = "" → env.kind a.enginePath ≠ none →
      (env.kind a.inputPath = some .regular ∨ env.kind a.inputPath = some .directory) →
      validate env a = .ok ([], env)) := by
  obtain ⟨hfail, hpass⟩ := validate_spec env a
  refine ⟨?_, hpass, ?_⟩
  · intro what hwhat
    unfold main tryBody
    simp only [hparse, hfail what hwhat]
  · intro hout hengine hinput
    have h2b : ¬ (env.kind a.inputPath = none ∨
        (env.kind a.inputPath ≠ some .regular ∧ env.kind a.inputPath ≠ some .directory)) := by
      rcases hinput with h | h <;> simp [h]
    simp [validate, hout, hengine, h2b]

/-- The output path `taken` is a regular file: checks (1)-(4) pass and (5)
fails. -/
theorem validation_order_witness :
    main (sampleEnv sevenImages 4 [])
        ["detect", "-e", "model.engine", "-i", "imgs", "-o", "taken", "-l", "labels.txt"] =
      .exit { events := [], stdout := [],
              stderr := ["Error: " ++ "Output path exists but is not a directory: taken"],
              status := 1 } :=
  (validation_order (sampleEnv sevenImages 4 [])
    ["detect", "-e", "model.engine", "-i", "imgs", "-o", "taken", "-l", "labels.txt"]
    { enginePath := "model.engine", inputPath := "imgs", outputPath := "taken",
      labelPath := "labels.txt", useCudaGraph := false } (by decide)).1 _ (by decide)

/-- C7 fails on the code: `detect -e model.engine -i imgs -o` has five tokens
after the program name and no unrecognized flag, so `parseArguments` should
return with the paths set; instead line 92 reads `argv[6] = argv[argc]`, the
null pointer, as the value of `-o`, and the call neither returns nor exits. -/
theorem value_flag_as_last_token :
    5 ≤ ["detect", "-e", "model.engine", "-i", "imgs", "-o"].length ∧
    (∀ p ∈ flagTokens (["detect", "-e", "model.engine", "-i", "imgs", "-o"].drop 1),
      recognized p.1 = true) ∧
    (parseArguments ["detect", "-e", "model.engine", "-i", "imgs", "-o"] Args.initial).result
      = .nullRead 6 ∧
    ∀ a, (parseArguments ["detect", "-e", "model.engine", "-i", "imgs", "-o"]
      Args.initial).result ≠ .returned a := by
  refine ⟨by decide, by decide, by decide, ?_⟩
  intro a h
  have h6 : (parseArguments ["detect", "-e", "model.engine", "-i", "imgs", "-o"]
      Args.initial).result = .nullRead 6 := by decide
  rw [h6] at h
  cases h

/-- C8: when a run reaches the directory branch with a positive batch size
and the image at index `j` is the first that does not decode, the run makes the
calls of the `j / batchSize` complete batches before it, then only the `imread`
calls of the batch containing `j` up to and including image `j`, and stops:
`predict` was called `j / batchSize` times, nothing is written to standard
output, standard error names the file, and the exit status is 1. -/
theorem decode_failure_fails_fast (env : Env) (argv : List String) (a : Args) (env2 : Env)
    (batchSize : Nat) (files : List String)
    (hreach : ReachesDirectoryMode env argv a env2 batchSize)
    (hscan : getImagesInDirectory (env2.listing a.inputPath) = .ok files)
    (hB : 0 < batchSize) (j : Nat) (bad : String)
    (hj : files[j]? = some bad)
    (hbefore : ∀ m f, m < j → files[m]? = some f →
      env2.imreadOk f = true)
    (hbad : env2.imreadOk bad = false) :
    ∃ e, main env argv = .exit e ∧
      e.events = .createModel a.enginePath a.useCudaGraph ::
        ((List.range (j / batchSize)).flatMap
            (fun k => batchEvents files batchSize
              a.outputPath (k * batchSize))
          ++ ((files.drop
                (j / batchSize * batchSize)).take (j % batchSize + 1)).map Event.imread) ∧
      predictCalls e.events = (List.range (j / batchSize)).map
        (fun k => (files.drop (k * batchSize)).take
          batchSize) ∧
      (predictCalls e.events).length = j / batchSize ∧
      e.stdout = [] ∧
      e.stderr = ["Error: Failed to read image from path: " ++ bad] ∧
      e.status = 1 := by
  obtain ⟨hlt, _⟩ := List.getElem?_eq_some_iff.mp hj
  have hne : files ≠ [] := by
    intro h
    rw [h] at hlt
    exact Nat.not_lt_zero _ hlt
  have hloop := batchLoop_decode_failure env2.imreadOk files batchSize a.outputPath hB j bad hj
    hbefore hbad files.length (lt_of_le_of_lt (Nat.div_le_self j batchSize) hlt)
  have hrun : directoryMode env2 a batchSize =
      some { events := (List.range (j / batchSize)).flatMap
                 (fun k => batchEvents files batchSize a.outputPath (k * batchSize))
               ++ ((files.drop (j / batchSize * batchSize)).take
                    (j % batchSize + 1)).map Event.imread,
             stdout := [],
             thrown := some ("Failed to read image from path: " ++ bad) } := by
    simp only [directoryMode, hscan, hne, if_false, hloop]
  have hcalls : predictCalls ((List.range (j / batchSize)).flatMap
        (fun k => batchEvents files batchSize a.outputPath (k * batchSize))
        ++ ((files.drop (j / batchSize * batchSize)).take
            (j % batchSize + 1)).map Event.imread) =
      (List.range (j / batchSize)).map (fun k => (files.drop (k * batchSize)).take batchSize) := by
    have := predictCalls_flatMap files batchSize a.outputPath 0 (List.range (j / batchSize))
    simp only [Nat.zero_add] at this
    rw [predictCalls_append, predictCalls_imread, this, List.append_nil]
    rfl
  refine ⟨_, main_directory env argv a env2 batchSize _ hreach hrun, rfl, ?_, ?_, rfl, rfl, rfl⟩
  · exact hcalls
  · exact (congrArg List.length hcalls).trans (by simp)

/-- Seven images, batch size 4, and `imgs/5.jpg` does not decode. -/
theorem decode_failure_fails_fast_witness :
    ∃ e, main (sampleEnv sevenImages 4 ["imgs/5.jpg"]) sampleArgv = .exit e ∧
      e.events =
        [.createModel "model.engine" false,
         .imread "imgs/0.jpg", .imread "imgs/1.jpg", .imread "imgs/2.png", .imread "imgs/3.jpg",
         .start .cpu, .start .gpu,
         .predict ["imgs/0.jpg", "imgs/1.jpg", "imgs/2.png", "imgs/3.jpg"],
         .imread "imgs/4.bmp", .imread "imgs/5.jpg"] ∧
      e.stdout = [] ∧
      e.stderr = ["Error: Failed to read image from path: imgs/5.jpg"] ∧
      e.status = 1 :=
  match decode_failure_fails_fast (sampleEnv sevenImages 4 ["imgs/5.jpg"]) sampleArgv sampleArgs
      (sampleEnv sevenImages 4 ["imgs/5.jpg"]) 4 sevenPaths (sample_reaches _ _ _) rfl
      (by decide) 5 "imgs/5.jpg" (by decide)
      (by
        intro m f hm hf
        interval_cases m <;> simp [sevenPaths] at hf <;> subst hf <;> decide)
      (by decide) with
  | ⟨e, hmain, hevents, _, _, hout, herr, hstatus⟩ =>
    ⟨e, hmain, hevents.trans (by decide), hout, herr, hstatus⟩

/-- C9: the warm-up tests compare the image offset `i = k * B` of batch `k`
with 5.  With at least one image, a positive batch size `B`, every image
decoding and `M = ceil(K / B)` batches, `count` after the loop is the number of
batches with `k * B > 5`, that is `max 0 (M - 5 / B - 1)`: `M - 6` for `B = 1`,
`M - 2` for `B = 4`, `M - 1` for every `B ≥ 6` (truncated at 0); and the two
timing lines are written exactly when `count` is positive. -/
theorem warmup_counts_image_offsets (env : Env) (a : Args) (batchSize : Nat)
    (files : List String)
    (hscan : getImagesInDirectory (env.listing a.inputPath) = .ok files)
    (hK : files ≠ []) (hB : 0 < batchSize)
    (hok : ∀ f ∈ files, env.imreadOk f = true) :
    ∃ r, batchLoop env.imreadOk files batchSize
          a.outputPath files.length 0
          { events := [], count := 0, thrown := none } = some r ∧
      r.count = ((List.range (batchCount files.length batchSize)).filter
            (fun k => 5 < k * batchSize)).length ∧
      (r.count : Int) = max 0 ((batchCount files.length batchSize : Int) - (5 / batchSize : Nat) - 1) ∧
      (batchSize = 1 → r.count = batchCount files.length batchSize - 6) ∧
      (batchSize = 4 → r.count = batchCount files.length batchSize - 2) ∧
      (6 ≤ batchSize → r.count = batchCount files.length batchSize - 1) ∧
      ∃ run, directoryMode env a batchSize = some run ∧
        run.stdout = if 0 < r.count then [.averageCpu r.count, .averageGpu r.count] else [] := by
  have hloop := batchLoop_all env.imreadOk files batchSize a.outputPath files.length hB
    (batchCount_le _ _ hB) hok
  have hlen := length_measuredBatches files.length batchSize hB
  have hcount : (afterBatches files batchSize a.outputPath 0 (batchCount files.length batchSize)
      { events := [], count := 0, thrown := none }).count =
        (measuredBatches files.length batchSize).length := by
    simp [afterBatches, measuredBatches]
  refine ⟨_, hloop, ?_, ?_, ?_, ?_, ?_, ?_⟩
  · simp [afterBatches]
  · rw [hcount, hlen]
    omega
  · intro h1
    rw [hcount, hlen, h1]
  · intro h4
    rw [hcount, hlen, h4]
  · intro h6
    rw [hcount, hlen, Nat.div_eq_of_lt (by omega)]
  · refine ⟨_, directoryMode_all env a batchSize files hscan hK hB hok, ?_⟩
    simp only [hcount]

/-- Seven images with batch size 4: offsets 0 and 4, nothing is counted and no
timing line is written. -/
theorem warmup_counts_image_offsets_witness :
    ∃ r, batchLoop (sampleEnv sevenImages 4 []).imreadOk
          sevenPaths 4
          sampleArgs.outputPath 7 0 { events := [], count := 0, thrown := none } = some r ∧
      r.count = 0 ∧
      ∃ run, directoryMode (sampleEnv sevenImages 4 []) sampleArgs 4 = some run ∧
        run.stdout = [] :=
  match warmup_counts_image_offsets (sampleEnv sevenImages 4 []) sampleArgs 4 sevenPaths
      rfl (by decide) (by decide) (by decide) with
  | ⟨r, hloop, hcount, _, _, _, _, run, hrun, hout⟩ =>
    ⟨r, hloop, hcount.trans (by decide), run, hrun, by
      rw [hout, hcount]
      decide⟩

/-- C10 fails on the code: for `detect -e model.engine --cudaGraph -i`, with
`argc = 5`, `parseArguments` reads the indices 1, 2, 3, 4 and then index 5, which
is `argv[argc]`, the null pointer, as the value of `-i`. -/
theorem parseArguments_reads_argv_argc :
    5 ≤ ["detect", "-e", "model.engine", "--cudaGraph", "-i"].length ∧
    parseArguments ["detect", "-e", "model.engine", "--cudaGraph", "-i"] Args.initial =
      { reads := [1, 2, 3, 4, 5], result := .nullRead 5 } ∧
    ¬ (∀ k ∈ (parseArguments ["detect", "-e", "model.engine", "--cudaGraph", "-i"]
          Args.initial).reads,
        k < ["detect", "-e", "model.engine", "--cudaGraph", "-i"].length) := by
  decide

end Detect
